import Mathlib

/-!
Shallow embedding of the Salt master-side channel module
(`salt/channel/server.py`): the request/authentication channel
(`ReqServerChannel`), the publish channel (`PubServerChannel`) and the
cluster relay (`MasterPubServerChannel`).

Python dictionaries are modelled as records with `Option` fields (a missing
field is `none`, and an access of a missing field raises `PyErr.keyError`),
mutable object state is passed explicitly through `SrvState`, and external
collaborators (key store driver internals, crypto primitives, event bus,
minion matcher) are abstracted as fields of an environment record `Env`.
Fallible Python code is modelled with `Except`.
-/

namespace Salt

/-- Decidable equality for `Except` results (not provided by core). -/
instance exceptDecEq {ε α : Type} [DecidableEq ε] [DecidableEq α] :
    DecidableEq (Except ε α) := fun x y =>
  match x, y with
  | .ok a, .ok b =>
    if h : a = b then .isTrue (by rw [h])
    else .isFalse (by intro hh; cases hh; exact h rfl)
  | .error a, .error b =>
    if h : a = b then .isTrue (by rw [h])
    else .isFalse (by intro hh; cases hh; exact h rfl)
  | .ok _, .error _ => .isFalse (by intro hh; cases hh)
  | .error _, .ok _ => .isFalse (by intro hh; cases hh)

/-- Association-list lookup (first match), modelling Python `dict` access. -/
def lookupBy {κ α : Type} [DecidableEq κ] : List (κ × α) → κ → Option α
  | [], _ => none
  | (k, v) :: rest, key => if k = key then some v else lookupBy rest key

/-- Association-list update: replace the first entry with the given key, or
append a new entry — this mirrors Python `dict` assignment, which keeps
insertion order and overwrites in place. -/
def updateBy {κ α : Type} [DecidableEq κ] : List (κ × α) → κ → α → List (κ × α)
  | [], key, v => [(key, v)]
  | (k, w) :: rest, key, v =>
    if k = key then (k, v) :: rest else (k, w) :: updateBy rest key v

/-- Association-list deletion of the first entry with the given key,
modelling Python `del d[k]`. -/
def removeBy {κ α : Type} [DecidableEq κ] : List (κ × α) → κ → List (κ × α)
  | [], _ => []
  | (k, w) :: rest, key =>
    if k = key then rest else (k, w) :: removeBy rest key

/-- Python whitespace characters stripped by `str.strip()`. -/
def pyWhitespace (c : Char) : Bool :=
  c == ' ' || c == '\t' || c == '\n' || c == '\r' ||
    c == Char.ofNat 11 || c == Char.ofNat 12

/-- Python `str.strip()`: drop leading and trailing whitespace. -/
def pyStrip (s : String) : String :=
  String.mk (((s.toList.dropWhile pyWhitespace).reverse.dropWhile
    pyWhitespace).reverse)

/-- One fuel step per consumed character: replace every non-overlapping
occurrence of `pat` (left to right) by `rep`, as Python `str.replace`.
The fuel argument (instantiated with the input length) only makes the
recursion structural; each step consumes at least one character, so it
never runs out. -/
def listReplaceFuel (pat rep : List Char) : Nat → List Char → List Char
  | 0, l => l
  | _, [] => []
  | fuel + 1, c :: rest =>
    if pat ≠ [] ∧ pat.isPrefixOf (c :: rest) then
      rep ++ listReplaceFuel pat rep fuel ((c :: rest).drop pat.length)
    else c :: listReplaceFuel pat rep fuel rest

/-- Python `str.replace(pat, rep)` (for the non-empty patterns used by the
cluster-tag code). -/
def pyReplace (s pat rep : String) : String :=
  String.mk (listReplaceFuel pat.toList rep.toList s.toList.length s.toList)

/-- Fuelled split on a non-empty separator, as Python `str.split(sep)`. -/
def listSplitFuel (sep : List Char) : Nat → List Char → List (List Char)
  | 0, l => [l]
  | _, [] => [[]]
  | fuel + 1, c :: rest =>
    if sep ≠ [] ∧ sep.isPrefixOf (c :: rest) then
      [] :: listSplitFuel sep fuel ((c :: rest).drop sep.length)
    else
      match listSplitFuel sep fuel rest with
      | [] => [[c]]
      | chunk :: more => (c :: chunk) :: more

/-- Python `s.split(sep)[0]`. -/
def pySplitHead (s sep : String) : String :=
  String.mk ((listSplitFuel sep.toList s.toList.length s.toList).headD [])

/-- Python `str.startswith`. -/
def pyStartsWith (s pre : String) : Bool :=
  pre.toList.isPrefixOf s.toList

/-- `salt.crypt.OAEP_SHA1`, the default encryption algorithm name. -/
def OAEP_SHA1 : String := "OAEP-SHA1"

/-- `salt.crypt.PKCS1v15_SHA1`, the default signing algorithm name. -/
def PKCS1v15_SHA1 : String := "PKCS1v15-SHA1"

/-- A Python value sitting in the `id` slot of a load: either a string or
some non-string value (carried as its textual repr, used in the
"is not a string" diagnostic). -/
inductive IdVal where
  | str (s : String)
  | other (repr : String)
deriving DecidableEq, Repr

/-- An inbound load dictionary (the fields `server.py` ever reads);
a missing key is `none`.  `rest` stands for the remaining agent-supplied
entries, which the module passes through to the application handler
untouched. -/
structure Load where
  idv : Option IdVal := none
  ts : Option Int := none
  nonce : Option String := none
  tok : Option String := none
  cmd : Option String := none
  pub : Option String := none
  token : Option String := none
  encAlgo : Option String := none
  sigAlgo : Option String := none
  grains : Option String := none
  rest : String := ""
deriving DecidableEq, Repr

/-- The value in the `load` slot of an envelope: ciphertext bytes (`aes`),
a dictionary, or some other non-dict value. -/
inductive LoadVal where
  | cipher (c : String)
  | ld (l : Load)
  | notDict (repr : String)
deriving DecidableEq, Repr

/-- A wire envelope (a Python dict). -/
structure Envelope where
  enc : Option String := none
  load : Option LoadVal := none
  idv : Option IdVal := none
  version : Option Int := none
  encAlgo : Option String := none
  sigAlgo : Option String := none
deriving DecidableEq, Repr

/-- An inbound payload: a dict envelope or some other value. -/
inductive Payload where
  | dict (e : Envelope)
  | notDict
deriving DecidableEq, Repr

/-- Python exceptions that can escape the modelled functions. -/
inductive PyErr where
  | keyError (k : String)
  | unboundLocal (v : String)
  | typeError (msg : String)
  | unsupportedAlgorithm
deriving DecidableEq, Repr

/-- Errors raised by `salt.crypt.Crypticle.loads` and by
`_decode_payload`: an authentication (HMAC/decrypt) failure, a
deserialization failure, or a missing-key error. -/
inductive DecErr where
  | authError
  | deser
  | keyErr
deriving DecidableEq, Repr

/-- Errors from `MasterKeys.decrypt` on a minion token: unsupported
algorithm, or any other decryption failure. -/
inductive TokErr where
  | unsupported
  | other
deriving DecidableEq, Repr

/-- A key-store record: `{pub: ..., state: ...}`.  `state` is kept as a
string because the cache is shared with external tooling and `_auth` has an
explicit branch for unrecognized states. -/
structure KeyRecord where
  pub : String
  state : String
deriving DecidableEq, Repr

/-- A `ret` value in a clear reply: Python `False`/`True` or a string such
as `"full"`. -/
inductive RetVal where
  | bool (b : Bool)
  | str (s : String)
deriving DecidableEq, Repr

/-- The accept-reply dictionary built by `_auth`. -/
structure AcceptRet where
  pubKey : String
  publishPort : Nat
  pubSig : Option String := none
  aes : Option String := none
  session : Option String := none
  token : Option String := none
  sig : String := ""
  nonce : Option String := none
deriving DecidableEq, Repr

/-- The dictionary handed to `salt.payload.dumps` inside `_clear_signed`. -/
inductive SignPayload where
  | retNonce (r : RetVal) (n : String)
  | accept (r : AcceptRet)
deriving DecidableEq, Repr

/-- A reply produced by `_auth`. -/
inductive Reply where
  | clear (ret : RetVal)
  | clearSigned (load : String) (sig : String)
  | pub (r : AcceptRet)
deriving DecidableEq, Repr

/-- An audit event load fired on the master event bus by `_auth`. -/
structure EventLoad where
  result : Option Bool
  act : Option String
  id : String
  pub : String
deriving DecidableEq, Repr

/-- The value of the `pillar` field signed in `_encrypt_private` (`ret` is
normalized: Python `False` becomes the empty mapping). -/
inductive PillarVal where
  | emptyMap
  | val (s : String)
deriving DecidableEq, Repr

/-- What gets encrypted with the one-time key in `_encrypt_private`. -/
inductive PrivInner where
  | signed (data : String) (sig : String)
  | plain (r : PillarVal)
deriving DecidableEq, Repr

/-- The result returned by the application handler (`payload_handler`):
Python `False` or an opaque value. -/
inductive HRet where
  | falseRet
  | val (s : String)
deriving DecidableEq, Repr

/-- The `req_opts` dictionary returned by the application handler. -/
structure ReqOpts where
  fn : Option String := none
  key : String := ""
  tgt : String := ""
deriving DecidableEq, Repr

/-- Result of `_encrypt_private`. -/
inductive PrivResult where
  | pret (keyEnc : String) (dictkey : String) (enc : String)
  | nonceErr
  | emptyEnc (c : String)
deriving DecidableEq, Repr

/-- A value returned by `handle_message` to the transport. -/
inductive HMsg where
  | str (s : String)
  | auth (r : Reply)
  | enc (cipher : String)
  | clearRet (r : HRet)
  | priv (p : PrivResult)
deriving DecidableEq, Repr

/-- The mutable state of a `ReqServerChannel` worker together with the
pieces of shared state it reads (`SMaster.secrets`, the key-store caches,
the session-key files and the wall clock).  Store operations are also
appended to log fields so that "no store happened" is expressible. -/
structure SrvState where
  keysBucket : List (String × KeyRecord) := []
  deniedBucket : List (String × List String) := []
  keysLog : List (String × KeyRecord) := []
  deniedLog : List (String × List String) := []
  sessions : List (String × Int × String) := []
  sessionFiles : List (String × Int × String) := []
  cryptKey : String := ""
  secretAes : String := ""
  secretClusterAes : String := ""
  now : Int := 0
  putCacheLog : List String := []
  events : List EventLoad := []
  handlerCalls : List Envelope := []
  freshCtr : Nat := 0
deriving DecidableEq, Repr

/-- Configuration options and external collaborators of
`ReqServerChannel`, abstracted as pure functions. -/
structure Env where
  maxMinions : Nat := 0
  openMode : Bool := false
  authMode : Nat := 1
  authEventsOn : Bool := false
  masterSignPubkey : Bool := false
  publishPort : Nat := 4505
  requestServerTtl : Nat := 0
  publishSession : Nat := 86400
  clusterId : Bool := false
  conCache : Bool := false
  cachedMinions : List String := []
  connectedIds : List String := []
  validId : String → Bool := fun _ => true
  cleanKey : String → String := id
  checkAutoreject : String → Bool := fun _ => false
  checkAutosign : String → Option String → Bool := fun _ _ => false
  fromStr : String → Option String := fun s => some s
  pubEncrypt : String → String → String → String := fun _ s _ => s
  masterDecrypt : String → String → Except TokErr String := fun s _ => .ok s
  masterSign : String → String → Except Unit String := fun s _ => .ok s
  masterEncrypt : String → String := id
  masterPubStr : String := "MASTERPUB"
  pubkeySignature : Option String := none
  signKeySign : String → String → String := fun s _ => s
  b2aBase64 : String → String := id
  sha256hex : String → String := id
  dumps : SignPayload → String := fun _ => ""
  freshKey : String → Nat → String := fun _ _ => ""
  genKey : Nat → String := fun _ => ""
  decrypt : String → String → Except DecErr LoadVal := fun _ _ => .error .deser
  encryptRet : String → HRet → Option String → String := fun _ _ _ => ""
  dumpsEmpty : String → String := fun _ => ""
  privDumps : String → PrivInner → String := fun _ _ => ""
  dumpsSignData : String → PillarVal → String → String := fun _ _ _ => ""
  payloadHandler : Envelope → Except Unit (HRet × ReqOpts) :=
    fun _ => .error ()
  tokenPubFile : String → Option String := fun _ => none
  cleanJoinOk : String → Bool := fun _ => true
  pubDecryptTok : String → String → Option String := fun _ _ => none

/-- `ReqServerChannel.compare_keys`: normalize and compare two keys. -/
def compareKeys (env : Env) (k1 k2 : String) : Bool :=
  env.cleanKey k1 == env.cleanKey k2

/-- The `aes_key` property: the current shared secret, selected by whether
the node is a cluster member. -/
def aesKeyOf (env : Env) (st : SrvState) : String :=
  if env.clusterId then st.secretClusterAes else st.secretAes

/-- `cache.store("keys", id, rec)` plus its log entry. -/
def storeKeys (st : SrvState) (id : String) (rec : KeyRecord) : SrvState :=
  { st with keysBucket := updateBy st.keysBucket id rec
            keysLog := st.keysLog ++ [(id, rec)] }

/-- `cache.store("denied_keys", id, denied)` plus its log entry. -/
def storeDenied (st : SrvState) (id : String) (d : List String) : SrvState :=
  { st with deniedBucket := updateBy st.deniedBucket id d
            deniedLog := st.deniedLog ++ [(id, d)] }

/-- Fire an auth audit event when `auth_events` is enabled (side effect
only; recorded in the event log). -/
def fireAuth (env : Env) (st : SrvState) (el : EventLoad) : SrvState :=
  if env.authEventsOn then { st with events := st.events ++ [el] } else st

/-- Tail of `session_key`: refresh the in-memory session cache from the
on-disk key file (`self.sessions[minion] = (st_mtime, read_key(path))`). -/
def sessFinish (st : SrvState) (m : String) : String × SrvState :=
  match lookupBy st.sessionFiles m with
  | some (mt, c) =>
    (c, { st with sessions := updateBy st.sessions m (mt, c) })
  | none => ("", st)

/-- `Crypticle.write_key(path)`: write a fresh random key to the minion's
session file, stamping it with the current time. -/
def sessWrite (env : Env) (st : SrvState) (m : String) : SrvState :=
  { st with
      sessionFiles := updateBy st.sessionFiles m (st.now, env.freshKey m st.freshCtr)
      freshCtr := st.freshCtr + 1 }

/-- The file-consulting path of `session_key`: regenerate if the file is
absent or older than `publish_session`, then refresh the memory cache. -/
def sessGo (env : Env) (st : SrvState) (m : String) : String × SrvState :=
  match lookupBy st.sessionFiles m with
  | some (mt, _) =>
    if st.now - mt > (env.publishSession : Int) then
      sessFinish (sessWrite env st m) m
    else
      sessFinish st m
  | none => sessFinish (sessWrite env st m) m

/-- `ReqServerChannel.session_key(minion)`: return the cached session key
if still fresh, else consult/refresh the on-disk key file. -/
def sessionKeyFn (env : Env) (st : SrvState) (m : String) : String × SrvState :=
  match lookupBy st.sessions m with
  | some (t, k) =>
    if st.now - t < (env.publishSession : Int) then (k, st)
    else sessGo env st m
  | none => sessGo env st m

/-- `ReqServerChannel._clear_signed(load, algorithm)`. -/
def clearSigned (env : Env) (p : SignPayload) (algo : String) : Reply :=
  match env.masterSign (env.dumps p) algo with
  | .ok sig => .clearSigned (env.dumps p) sig
  | .error _ => .clear (.str "bad sig algo")

/-- The reply pattern shared by the `_auth` early-return branches:
`_clear_signed({"ret": ret, "nonce": load["nonce"]}, sig_algo)` when
signing, else the plain `{"enc": "clear", "load": {"ret": ret}}` dict.
The `load["nonce"]` access raises `KeyError` when the nonce is absent. -/
def replyRet (env : Env) (st : SrvState) (l : Load) (sm : Bool)
    (sigA : String) (ret : RetVal) : Except PyErr (Reply × SrvState) :=
  if sm then
    match l.nonce with
    | none => .error (.keyError "nonce")
    | some n => .ok (clearSigned env (.retNonce ret n) sigA, st)
  else .ok (.clear ret, st)

/-- `valid_id` lifted to an `id` slot value: salt's `valid_id` returns a
falsy result for non-string input. -/
def validIdVal (env : Env) : IdVal → Bool
  | .str s => env.validId s
  | .other _ => false

/-- The `max_minions` gate condition of `_auth`: set (> 0), the number of
currently-connected identities not within the cap, and this identity not
among them. -/
def gateRejects (env : Env) (id : String) : Bool :=
  let minions := if env.conCache then env.cachedMinions else env.connectedIds
  decide (env.maxMinions > 0) && !decide (minions.length ≤ env.maxMinions)
    && !decide (id ∈ minions)

/-- The second stage of the accept path of `_auth`: encrypt `aes` and a
freshly issued session key to the minion's public key, attach the SHA-256
digest signature, fire the accept event, and (when signing) echo the
nonce. -/
def sealAccept (env : Env) (st : SrvState) (l : Load) (id pubS : String)
    (sm : Bool) (sigA encA : String) (po : String) (ret0 : AcceptRet)
    (aes : String) : Except PyErr (Reply × SrvState) :=
  let sres := sessionKeyFn env st id
  let ret1 := { ret0 with
                  aes := some (env.pubEncrypt po aes encA)
                  session := some (env.pubEncrypt po sres.1 encA) }
  let ret2 := { ret1 with sig := env.masterEncrypt (env.sha256hex aes) }
  let st2 := fireAuth env sres.2 ⟨some true, some "accept", id, pubS⟩
  if sm then
    match l.nonce with
    | none => .error (.keyError "nonce")
    | some n => .ok (clearSigned env (.accept { ret2 with nonce := some n }) sigA, st2)
  else .ok (.pub ret2, st2)

/-- The first stage of the accept path of `_auth` after the key record is
settled: `con_cache` registration, parsing the stored public key, building
the reply skeleton (master public key, publish port, optional pubkey
signature) and the `auth_mode`-dependent token / AES handling. -/
def finishAccept (env : Env) (st0 : SrvState) (l : Load) (id pubS : String)
    (sm : Bool) (sigA encA : String) (k : KeyRecord) :
    Except PyErr (Reply × SrvState) :=
  let st := if env.conCache
    then { st0 with putCacheLog := st0.putCacheLog ++ [id] } else st0
  match env.fromStr k.pub with
  | none => replyRet env st l sm sigA (.bool false)
  | some po =>
    let ret0 : AcceptRet :=
      { pubKey := env.masterPubStr, publishPort := env.publishPort }
    let ret1 := if env.masterSignPubkey then
        match env.pubkeySignature with
        | some s => { ret0 with pubSig := some s }
        | none =>
          { ret0 with
              pubSig := some (env.b2aBase64 (env.signKeySign env.masterPubStr sigA)) }
      else ret0
    if env.authMode ≥ 2 then
      match l.token with
      | some tk =>
        match env.masterDecrypt tk encA with
        | .ok mtoken =>
          sealAccept env st l id pubS sm sigA encA po ret1
            (st.secretAes ++ "_|-" ++ mtoken)
        | .error .unsupported => .ok (.clear (.str "bad enc algo"), st)
        | .error .other => .error (.unboundLocal "aes")
      | none => sealAccept env st l id pubS sm sigA encA po ret1 (aesKeyOf env st)
    else
      match l.token with
      | some tk =>
        match env.masterDecrypt tk encA with
        | .ok mtoken =>
          sealAccept env st l id pubS sm sigA encA po
            { ret1 with token := some (env.pubEncrypt po mtoken encA) }
            (aesKeyOf env st)
        | .error .unsupported => .ok (.clear (.str "bad enc algo"), st)
        | .error .other =>
          sealAccept env st l id pubS sm sigA encA po ret1 (aesKeyOf env st)
      | none => sealAccept env st l id pubS sm sigA encA po ret1 (aesKeyOf env st)

/-- The key-record write-back at the head of the accept path of `_auth`:
store an `accepted` record if the key was not accepted yet (closed mode),
or under open mode overwrite on any changed non-empty key and reject an
empty one. -/
def acceptGo (env : Env) (st : SrvState) (l : Load) (id pubS : String)
    (sm : Bool) (sigA encA : String) (key : Option KeyRecord) :
    Except PyErr (Reply × SrvState) :=
  let notAccepted := match key with
    | none => true
    | some k => decide (k.state ≠ "accepted")
  if notAccepted && !env.openMode then
    let k : KeyRecord := ⟨pubS, "accepted"⟩
    finishAccept env (storeKeys st id k) l id pubS sm sigA encA k
  else if env.openMode then
    if pubS != "" && (match key with
        | none => true
        | some k => decide (pubS ≠ k.pub)) then
      let k : KeyRecord := ⟨pubS, "accepted"⟩
      finishAccept env (storeKeys st id k) l id pubS sm sigA encA k
    else if pubS = "" then
      replyRet env st l sm sigA (.bool false)
    else
      match key with
      | some k => finishAccept env st l id pubS sm sigA encA k
      | none => .error (.typeError "NoneType")
  else
    match key with
    | some k => finishAccept env st l id pubS sm sigA encA k
    | none => .error (.typeError "NoneType")

/-- The accepted-state key-mismatch branch and the two pending-state
mismatch branches share this shape: record the denial (append to
`denied_keys` when not already present), fire the event, reply reject. -/
def denyMismatch (env : Env) (st : SrvState) (l : Load) (id pubS : String)
    (sm : Bool) (sigA : String) (denied : List String) (act : Option String) :
    Except PyErr (Reply × SrvState) :=
  let st1 := if pubS ∈ denied then st
    else storeDenied st id (denied ++ [pubS])
  let st2 := fireAuth env st1 ⟨some false, act, id, pubS⟩
  replyRet env st2 l sm sigA (.bool false)

/-- The branch tree of `_auth` over the fetched key record: open-mode
bypass, rejected, accepted (with key comparison), new minion
(auto-reject / pending / auto-sign), pending, and the unaccounted
fallback. -/
def authMachine (env : Env) (st : SrvState) (l : Load) (id pubS : String)
    (sm : Bool) (sigA encA : String) (autoReject autoSign : Bool)
    (key : Option KeyRecord) (denied : List String) :
    Except PyErr (Reply × SrvState) :=
  match key with
  | none =>
    if env.openMode then acceptGo env st l id pubS sm sigA encA none
    else if autoReject then
      let st1 := storeKeys st id ⟨pubS, "rejected"⟩
      let st2 := fireAuth env st1 ⟨some false, some "reject", id, pubS⟩
      replyRet env st2 l sm sigA (.bool false)
    else if !autoSign then
      let st1 := storeKeys st id ⟨pubS, "pending"⟩
      let st2 := fireAuth env st1 ⟨some true, some "pend", id, pubS⟩
      replyRet env st2 l sm sigA (.bool true)
    else acceptGo env st l id pubS sm sigA encA none
  | some k =>
    if env.openMode then acceptGo env st l id pubS sm sigA encA (some k)
    else if k.state = "rejected" then
      let st1 := fireAuth env st ⟨some false, none, id, pubS⟩
      replyRet env st1 l sm sigA (.bool false)
    else if k.state = "accepted" then
      if !compareKeys env k.pub pubS then
        denyMismatch env st l id pubS sm sigA denied (some "denied")
      else acceptGo env st l id pubS sm sigA encA (some k)
    else if k.state = "pending" then
      if autoReject then
        let st1 := storeKeys st id ⟨k.pub, "rejected"⟩
        let st2 := fireAuth env st1 ⟨some false, some "reject", id, pubS⟩
        replyRet env st2 l sm sigA (.bool false)
      else if !autoSign then
        if !compareKeys env k.pub pubS then
          denyMismatch env st l id pubS sm sigA denied (some "denied")
        else
          let st1 := fireAuth env st ⟨some true, some "pend", id, pubS⟩
          replyRet env st1 l sm sigA (.bool true)
      else
        if !compareKeys env k.pub pubS then
          denyMismatch env st l id pubS sm sigA denied none
        else acceptGo env st l id pubS sm sigA encA (some k)
    else
      let st1 := fireAuth env st ⟨some false, none, id, pubS⟩
      replyRet env st1 l sm sigA (.bool false)

/-- The reject reply for an invalid authentication id (fires no event). -/
def invalidIdReply (env : Env) (st : SrvState) (l : Load) (sm : Bool)
    (sigA : String) : Except PyErr (Reply × SrvState) :=
  replyRet env st l sm sigA (.bool false)

/-- `ReqServerChannel._auth(load, sign_messages, version)`. -/
def authFn (env : Env) (st : SrvState) (l0 : Load) (sm : Bool) (_ver : Int) :
    Except PyErr (Reply × SrvState) :=
  let encA := l0.encAlgo.getD OAEP_SHA1
  let sigA := l0.sigAlgo.getD PKCS1v15_SHA1
  match l0.idv with
  | none => .error (.keyError "id")
  | some (.other _) => invalidIdReply env st l0 sm sigA
  | some (.str id) =>
    if !env.validId id then invalidIdReply env st l0 sm sigA
    else
      match l0.pub with
      | none => .error (.keyError "pub")
      | some pub0 =>
        let pubS := pyStrip pub0
        let l := { l0 with pub := some pubS }
        if gateRejects env id then
          let st1 := fireAuth env st ⟨some false, some "full", id, pubS⟩
          replyRet env st1 l sm sigA (.str "full")
        else
          let autoReject := env.checkAutoreject id
          let autoSign := env.checkAutosign id l.grains
          let key := match lookupBy st.keysBucket id with
            | some k => some { k with pub := pyStrip k.pub }
            | none => none
          let denied := (lookupBy st.deniedBucket id).getD []
          authMachine env st l id pubS sm sigA encA autoReject autoSign key denied

/-- `ReqServerChannel.validate_token(payload, required)`: pop `tok` from
the load (always), then when both `tok` and `id` are present check the
RSA-decrypt-and-compare-to-`b"salt"` scheme against the minion's on-disk
public key; with either absent the result is `not required`. -/
def validateToken (env : Env) (l : Load) (required : Bool) : Bool × Load :=
  let tok := l.tok
  let lp := { l with tok := none }
  match tok, lp.idv with
  | some t, some (.str id) =>
    if !env.cleanJoinOk id then (false, lp)
    else
      match env.tokenPubFile id with
      | none => (false, lp)
      | some k =>
        match env.pubDecryptTok k t with
        | none => (false, lp)
        | some pt => if pt = "salt" then (true, lp) else (false, lp)
  | some _, some (.other _) => (false, lp)
  | _, _ => if required then (false, lp) else (true, lp)

/-- `ReqServerChannel._decode_payload(payload, version)`, with the
`_update_aes` self-heal retry inlined for the version ≤ 2 path.  The
returned state carries the (possibly refreshed) worker crypticle key even
when the decode fails. -/
def decodePayload (env : Env) (st : SrvState) (p : Envelope) (version : Int) :
    Except DecErr Envelope × SrvState :=
  if p.enc = some "aes" then
    match p.load with
    | some (.cipher c) =>
      if version > 2 then
        match p.idv with
        | none => (.error .keyErr, st)
        | some iv =>
          if validIdVal env iv then
            match iv with
            | .str s =>
              let kres := sessionKeyFn env st s
              (match env.decrypt kres.1 c with
               | .ok lv => (.ok { p with load := some lv }, kres.2)
               | .error e => (.error e, kres.2))
            | .other _ => (.error .deser, st)
          else (.error .deser, st)
      else
        match env.decrypt st.cryptKey c with
        | .ok lv => (.ok { p with load := some lv }, st)
        | .error .authError =>
          if aesKeyOf env st = st.cryptKey then (.error .authError, st)
          else
            let st1 := { st with cryptKey := aesKeyOf env st }
            (match env.decrypt (aesKeyOf env st) c with
             | .ok lv => (.ok { p with load := some lv }, st1)
             | .error e => (.error e, st1))
        | .error e => (.error e, st)
    | _ => (.error .deser, st)
  else (.ok p, st)

/-- `ReqServerChannel._encrypt_private(ret, dictkey, target, nonce,
sign_messages, encryption_algorithm, signing_algorithm)`. -/
def encryptPrivate (env : Env) (st : SrvState) (ret : HRet)
    (dictkey target : String) (nonce : Option String) (sm : Bool)
    (encA sigA : String) : Except PyErr (PrivResult × SrvState) :=
  let key := env.genKey st.freshCtr
  let st1 := { st with freshCtr := st.freshCtr + 1 }
  match lookupBy st1.keysBucket target with
  | none => .ok (.emptyEnc (env.dumpsEmpty st1.cryptKey), st1)
  | some rec =>
    match env.fromStr rec.pub with
    | none => .ok (.emptyEnc (env.dumpsEmpty st1.cryptKey), st1)
    | some po =>
      let keyEnc := env.pubEncrypt po key encA
      let pillar : PillarVal := match ret with
        | .falseRet => .emptyMap
        | .val s => .val s
      if sm then
        match nonce with
        | none => .ok (.nonceErr, st1)
        | some n =>
          let tosign := env.dumpsSignData keyEnc pillar n
          match env.masterSign tosign sigA with
          | .error _ => .error .unsupportedAlgorithm
          | .ok sig =>
            .ok (.pret keyEnc dictkey (env.privDumps key (.signed tosign sig)), st1)
      else .ok (.pret keyEnc dictkey (env.privDumps key (.plain pillar)), st1)

/-- The tail of `handle_message`: invoke the registered application
handler (recorded in `handlerCalls`) and re-encode its result according to
`req_opts["fun"]`.  `nonceVar` models the Python local `nonce`: `none`
means the variable was never assigned (only the `aes` branch assigns it),
so uses raise `UnboundLocalError`. -/
def invokeHandler (env : Env) (st : SrvState) (p : Envelope) (l2 : Load)
    (idStr : String) (version : Int) (nonceVar : Option (Option String)) :
    Except PyErr (HMsg × SrvState) :=
  let pH := { p with load := some (.ld l2) }
  let st2 := { st with handlerCalls := st.handlerCalls ++ [pH] }
  match env.payloadHandler pH with
  | .error _ => .ok (.str "Some exception handling minion payload", st2)
  | .ok (ret, reqOpts) =>
    let fn := reqOpts.fn.getD "send"
    if fn = "send_clear" then .ok (.clearRet ret, st2)
    else if fn = "send" then
      match nonceVar with
      | none => .error (.unboundLocal "nonce")
      | some nc =>
        if version > 2 then
          let kres := sessionKeyFn env st2 idStr
          .ok (.enc (env.encryptRet kres.1 ret nc), kres.2)
        else .ok (.enc (env.encryptRet st2.cryptKey ret nc), st2)
    else if fn = "send_private" then
      match nonceVar with
      | none => .error (.unboundLocal "nonce")
      | some nc =>
        match encryptPrivate env st2 ret reqOpts.key reqOpts.tgt nc
            (version > 1) (p.encAlgo.getD OAEP_SHA1)
            (p.sigAlgo.getD PKCS1v15_SHA1) with
        | .ok (pr, st3) => .ok (.priv pr, st3)
        | .error e => .error e
    else .ok (.str "Server-side exception handling payload", st2)

/-- The version > 2 `aes` checks of `handle_message` after the ttl gate:
outer/inner id binding, identity format validation, and required token
validation. -/
def v3Checks (env : Env) (st : SrvState) (p : Envelope) (l1 : Load)
    (idStr : String) (version : Int) (nonce : Option String) :
    Except PyErr (HMsg × SrvState) :=
  match p.idv with
  | none => .error (.keyError "id")
  | some outer =>
    match l1.idv with
    | none => .error (.keyError "id")
    | some inner =>
      if outer ≠ inner then .ok (.str "bad load", st)
      else if !validIdVal env inner then .ok (.str "bad load", st)
      else
        match validateToken env l1 true with
        | (false, _) => .ok (.str "bad load", st)
        | (true, l2) => invokeHandler env st p l2 idStr version (some nonce)

/-- The routing stage of `handle_message` after decode and the id
pre-validation: `_auth` interception, the `aes` checks, and the handler
invocation. -/
def handleRouted (env : Env) (st : SrvState) (p : Envelope) (l0 : Load)
    (idStr : String) (version : Int) : Except PyErr (HMsg × SrvState) :=
  let sm := version > 1
  if p.enc = some "clear" ∧ l0.cmd = some "_auth" then
    match authFn env st l0 sm version with
    | .ok (r, st2) => .ok (.auth r, st2)
    | .error e => .error e
  else if p.enc = some "aes" then
    let nonce : Option String := if version > 1 then l0.nonce else none
    let l1 := if version > 1 then { l0 with nonce := none } else l0
    if version > 2 then
      if env.requestServerTtl > 0 then
        match l1.ts with
        | none => .error (.keyError "ts")
        | some ts =>
          if st.now - ts > (env.requestServerTtl : Int) then
            .ok (.str "bad load", st)
          else v3Checks env st p l1 idStr version nonce
      else v3Checks env st p l1 idStr version nonce
    else
      match validateToken env l1 false with
      | (false, _) => .ok (.str "bad load", st)
      | (true, l2) => invokeHandler env st p l2 idStr version (some nonce)
  else invokeHandler env st p l0 idStr version none

/-- `ReqServerChannel.handle_message(payload)`. -/
def handleMessage (env : Env) (st : SrvState) (pl : Payload) :
    Except PyErr (HMsg × SrvState) :=
  match pl with
  | .notDict => .ok (.str "bad load", st)
  | .dict p0 =>
    if p0.enc.isNone || p0.load.isNone then .ok (.str "bad load", st)
    else
      let version := p0.version.getD 0
      let dres := decodePayload env st p0 version
      match dres.1 with
      | .error _ => .ok (.str "bad load", dres.2)
      | .ok p =>
        match p.load with
        | some (.ld l0) =>
          match l0.idv with
          | some (.other r) =>
            .ok (.str ("bad load: id " ++ r ++ " is not a string"), dres.2)
          | some (.str s) =>
            if Char.ofNat 0 ∈ s.toList then
              .ok (.str "bad load: id contains a null byte", dres.2)
            else handleRouted env dres.2 p l0 s version
          | none => handleRouted env dres.2 p l0 "" version
        | _ => .ok (.str "payload and load must be a dict", dres.2)

/-! ## `PubServerChannel` presence tracking -/

/-- A subscriber connection handle; `idv` is its `id_` attribute, set only
once the connection has identified itself. -/
structure Client where
  idv : Option String
  h : Nat
deriving DecidableEq, Repr

/-- A presence event fired on the event bus. -/
inductive PEvent where
  | change (nw : List (Option String)) (lost : List (Option String))
  | snapshot (present : List (Option String))
deriving DecidableEq, Repr

/-- The presence state owned by a `PubServerChannel`: `self.present`
(identity → set of live connection handles) plus the fired-events log. -/
structure PresSt where
  present : List (Option String × List Client) := []
  pevents : List PEvent := []
deriving DecidableEq, Repr

/-- Python `set.add`: a no-op when the element is already present. -/
def insertClient (c : Client) (cs : List Client) : List Client :=
  if c ∈ cs then cs else cs ++ [c]

/-- `list(self.present.keys())`. -/
def presKeys (P : List (Option String × List Client)) : List (Option String) :=
  P.map (fun e => e.1)

/-- `PubServerChannel._add_client_present(client)`. -/
def addClientPresent (presenceEvents : Bool) (st : PresSt) (c : Client) :
    PresSt :=
  match lookupBy st.present c.idv with
  | some cs =>
    { st with present := updateBy st.present c.idv (insertClient c cs) }
  | none =>
    let pNew := updateBy st.present c.idv [c]
    if presenceEvents then
      { present := pNew
        pevents := st.pevents ++ [.change [c.idv] [], .snapshot (presKeys pNew)] }
    else { st with present := pNew }

/-- `PubServerChannel._remove_client_present(client)`. -/
def removeClientPresent (presenceEvents : Bool) (st : PresSt) (c : Client) :
    PresSt :=
  match c.idv with
  | none => st
  | some i =>
    match lookupBy st.present (some i) with
    | none => st
    | some cs =>
      if c ∉ cs then st
      else
        let csNew := cs.erase c
        if csNew = [] then
          let pNew := removeBy st.present (some i)
          if presenceEvents then
            { present := pNew
              pevents := st.pevents ++
                [.change [] [some i], .snapshot (presKeys pNew)] }
          else { st with present := pNew }
        else { st with present := updateBy st.present (some i) csNew }

/-! ## `MasterPubServerChannel` cluster relay -/

/-- Errors from `Crypticle.loads` on a forwarded event: an authentication
failure, or any other error (e.g. a missing `event_payload` key), which the
surrounding broad `except` swallows. -/
inductive ClErr where
  | authErr
  | keyErr
deriving DecidableEq, Repr

/-- A forwarded event as republished locally (`event_data` with its
`__peer_id` marker). -/
structure EventOut where
  body : String
  peerId : String
deriving DecidableEq, Repr

/-- The data part of an unpacked pool payload: a key-exchange dict
(`cluster/peer` tags) or the encrypted event blob (`cluster/event` tags).
A per-peer entry of `none` models the empty dict stored when the peer's
public key was missing. -/
inductive PoolData where
  | peer (peerId : String) (peers : List (String × Option (String × String)))
  | blob (d : String)
deriving DecidableEq, Repr

/-- The aes-key event `send_aes_key_event` fires on the master event bus. -/
structure BusEvent where
  peerId : String
  peers : List (String × Option (String × String))
deriving DecidableEq, Repr

/-- Mutable state of a `MasterPubServerChannel`: the negotiated per-peer
keys, the per-peer auth-error FIFO queues, and logs of what was republished
locally (`transport.publish_payload`) and fired on the bus. -/
structure CState where
  peerKeys : List (String × String) := []
  authErrors : List (String × List (String × String)) := []
  published : List (String × EventOut) := []
  busEvents : List BusEvent := []
deriving DecidableEq, Repr

/-- External collaborators of the cluster relay. -/
structure CEnv where
  myId : String := "master"
  clusterPeers : List String := []
  fetchPeerPub : String → Option String := fun _ => none
  secretAes : String := ""
  sha256hex : String → String := id
  peerPubEncrypt : String → String → String := fun _ s => s
  masterEncryptC : String → String := id
  masterDecrypt224 : String → String := id
  peerPubDecrypt : String → String → String := fun _ s => s
  crypticleLoads : String → String → Except ClErr String :=
    fun _ _ => .error .authErr

/-- `MasterPubServerChannel.send_aes_key_event`. -/
def sendAesKeyEvent (env : CEnv) (st : CState) : CState :=
  let data : BusEvent :=
    { peerId := env.myId
      peers := env.clusterPeers.map (fun p =>
        (p, match env.fetchPeerPub p with
            | some pk =>
              some (env.peerPubEncrypt pk env.secretAes,
                env.masterEncryptC (env.sha256hex env.secretAes))
            | none => none)) }
  { st with busEvents := st.busEvents ++ [data] }

/-- `MasterPubServerChannel.parse_cluster_tag(tag)`. -/
def parseClusterTag (tag : String) : String × String :=
  let peerId := pySplitHead (pyReplace tag "cluster/event/" "") "/"
  (peerId, pyReplace tag ("cluster/event/" ++ peerId ++ "/") "")

/-- `MasterPubServerChannel.extract_cluster_event(peer_id, data)`. -/
def extractClusterEvent (env : CEnv) (peerKeys : List (String × String))
    (peerId : String) (data : String) : Except ClErr EventOut :=
  match lookupBy peerKeys peerId with
  | some k =>
    match env.crypticleLoads k data with
    | .ok body => .ok ⟨body, peerId⟩
    | .error e => .error e
  | none => .error .authErr

/-- The `while self.auth_errors[peer]` drain loop of
`handle_pool_publish`.  Note that, as in the source, the tag of each
buffered event (the first tuple component bound to `key` by `popleft`) is
ignored, and `parse_cluster_tag` is applied to `tag` — the tag of the
*current* key-exchange event.  Returns the locally-republished events and
the queue remainder (non-empty only when a non-auth error aborts the
enclosing function). -/
def drainGo (env : CEnv) (peerKeys : List (String × String)) (tag : String) :
    List (String × String) → List (String × EventOut) × List (String × String)
  | [] => ([], [])
  | (_, d) :: rest =>
    let pr := parseClusterTag tag
    match extractClusterEvent env peerKeys pr.1 d with
    | .ok ev =>
      let r := drainGo env peerKeys tag rest
      ((pr.2, ev) :: r.1, r.2)
    | .error .authErr => drainGo env peerKeys tag rest
    | .error .keyErr => ([], rest)

/-- Run the drain loop against the peer's queue and commit its effects. -/
def doDrain (env : CEnv) (st : CState) (tag peer : String) : CState :=
  match lookupBy st.authErrors peer with
  | none => st
  | some q =>
    let r := drainGo env st.peerKeys tag q
    { st with authErrors := updateBy st.authErrors peer r.2
              published := st.published ++ r.1 }

/-- `MasterPubServerChannel.handle_pool_publish(payload)` after
`SaltEvent.unpack`.  All exceptions are swallowed by the enclosing broad
`except`, so an aborted run simply returns the state mutated so far. -/
def handlePoolPublish (env : CEnv) (st : CState) (tag : String)
    (data : PoolData) : CState :=
  if pyStartsWith tag "cluster/peer" then
    match data with
    | .blob _ => st
    | .peer peerId peers =>
      match lookupBy peers env.myId with
      | none => st
      | some none => st
      | some (some (aes, sig)) =>
        let keyStr := env.masterDecrypt224 aes
        let digest := env.sha256hex keyStr
        match env.fetchPeerPub peerId with
        | none => st
        | some pk =>
          if env.peerPubDecrypt pk sig ≠ digest then st
          else
            match lookupBy st.peerKeys peerId with
            | some old =>
              if old ≠ keyStr then
                let st1 := sendAesKeyEvent env
                  { st with peerKeys := updateBy st.peerKeys peerId keyStr }
                doDrain env st1 tag peerId
              else st
            | none =>
              let st1 := sendAesKeyEvent env
                { st with peerKeys := updateBy st.peerKeys peerId keyStr }
              doDrain env st1 tag peerId
  else if pyStartsWith tag "cluster/event" then
    let pr := parseClusterTag tag
    match data with
    | .peer _ _ => st
    | .blob d =>
      match extractClusterEvent env st.peerKeys pr.1 d with
      | .ok ev => { st with published := st.published ++ [(pr.2, ev)] }
      | .error .authErr =>
        match lookupBy st.authErrors pr.1 with
        | some q =>
          { st with authErrors := updateBy st.authErrors pr.1 (q ++ [(tag, d)]) }
        | none => st
      | .error .keyErr => st
  else st

/-! ## Association-list lemmas -/

theorem lookupBy_updateBy_self {κ α : Type} [DecidableEq κ]
    (L : List (κ × α)) (k : κ) (v : α) :
    lookupBy (updateBy L k v) k = some v := by
  induction L with
  | nil => simp [lookupBy, updateBy]
  | cons e rest ih =>
    obtain ⟨a, b⟩ := e
    by_cases h : a = k
    · simp [lookupBy, updateBy, h]
    · simp [lookupBy, updateBy, h, ih]

theorem lookupBy_updateBy_ne {κ α : Type} [DecidableEq κ]
    (L : List (κ × α)) (k k' : κ) (v : α) (h : k' ≠ k) :
    lookupBy (updateBy L k v) k' = lookupBy L k' := by
  induction L with
  | nil => simp [lookupBy, updateBy, Ne.symm h]
  | cons e rest ih =>
    obtain ⟨a, b⟩ := e
    by_cases he : a = k
    · subst he
      simp [lookupBy, updateBy, Ne.symm h]
    · by_cases he' : a = k'
      · simp [lookupBy, updateBy, he, he', h]
      · simp [lookupBy, updateBy, he, he', ih]

theorem updateBy_idem {κ α : Type} [DecidableEq κ]
    (L : List (κ × α)) (k : κ) (v : α) (h : lookupBy L k = some v) :
    updateBy L k v = L := by
  induction L with
  | nil => simp [lookupBy] at h
  | cons e rest ih =>
    obtain ⟨a, b⟩ := e
    by_cases he : a = k
    · simp only [lookupBy, if_pos he] at h
      cases h
      simp [updateBy, he]
    · simp only [lookupBy, if_neg he] at h
      simp [updateBy, he, ih h]

theorem lookupBy_removeBy_ne {κ α : Type} [DecidableEq κ]
    (L : List (κ × α)) (k k' : κ) (h : k' ≠ k) :
    lookupBy (removeBy L k) k' = lookupBy L k' := by
  induction L with
  | nil => simp [removeBy]
  | cons e rest ih =>
    obtain ⟨a, b⟩ := e
    by_cases he : a = k
    · subst he
      simp [removeBy, lookupBy, Ne.symm h]
    · by_cases he' : a = k'
      · simp [removeBy, lookupBy, he, he', h]
      · simp [removeBy, lookupBy, he, he', ih]

theorem keysOf_removeBy_sublist {κ α : Type} [DecidableEq κ]
    (L : List (κ × α)) (k : κ) :
    ((removeBy L k).map Prod.fst).Sublist (L.map Prod.fst) := by
  induction L with
  | nil => simp [removeBy]
  | cons e rest ih =>
    obtain ⟨a, b⟩ := e
    by_cases he : a = k
    · simp only [removeBy, if_pos he, List.map_cons]
      exact List.sublist_cons_self _ _
    · simp only [removeBy, if_neg he, List.map_cons]
      exact ih.cons₂ _

theorem lookup_some_mem_keys {κ α : Type} [DecidableEq κ]
    (L : List (κ × α)) (k : κ) (v : α) (h : lookupBy L k = some v) :
    k ∈ L.map Prod.fst := by
  induction L with
  | nil => simp [lookupBy] at h
  | cons e rest ih =>
    obtain ⟨a, b⟩ := e
    by_cases he : a = k
    · simp [he]
    · simp only [lookupBy, if_neg he] at h
      simp [ih h]

theorem lookupBy_removeBy_self {κ α : Type} [DecidableEq κ]
    (L : List (κ × α)) (k : κ) (hnd : (L.map Prod.fst).Nodup) :
    lookupBy (removeBy L k) k = none := by
  induction L with
  | nil => simp [removeBy, lookupBy]
  | cons e rest ih =>
    obtain ⟨a, b⟩ := e
    simp only [List.map_cons, List.nodup_cons] at hnd
    by_cases he : a = k
    · subst he
      simp only [removeBy, if_pos rfl]
      cases hl : lookupBy rest a with
      | none => exact hl
      | some v => exact absurd (lookup_some_mem_keys rest a v hl) hnd.1
    · simp only [removeBy, if_neg he, lookupBy, if_neg he]
      exact ih hnd.2

theorem mem_updateBy {κ α : Type} [DecidableEq κ]
    (L : List (κ × α)) (k : κ) (v : α) (e : κ × α) :
    e ∈ updateBy L k v → e ∈ L ∨ e = (k, v) := by
  induction L with
  | nil =>
    intro h
    simp [updateBy] at h
    simp [h]
  | cons f rest ih =>
    intro h
    obtain ⟨a, b⟩ := f
    by_cases hf : a = k
    · subst hf
      simp only [updateBy, if_pos] at h
      rcases List.mem_cons.mp h with h1 | h1
      · right; exact h1
      · left; exact List.mem_cons_of_mem _ h1
    · simp only [updateBy, if_neg hf] at h
      rcases List.mem_cons.mp h with h1 | h1
      · left; simp [h1]
      · rcases ih h1 with h2 | h2
        · left; exact List.mem_cons_of_mem _ h2
        · right; exact h2

theorem mem_removeBy {κ α : Type} [DecidableEq κ]
    (L : List (κ × α)) (k : κ) (e : κ × α) :
    e ∈ removeBy L k → e ∈ L := by
  induction L with
  | nil =>
    intro h
    simp [removeBy] at h
  | cons f rest ih =>
    intro h
    obtain ⟨a, b⟩ := f
    by_cases hf : a = k
    · simp only [removeBy, if_pos hf] at h
      exact List.mem_cons_of_mem _ h
    · simp only [removeBy, if_neg hf, List.mem_cons] at h
      rcases h with h | h
      · simp [h]
      · exact List.mem_cons_of_mem _ (ih h)

theorem keysOf_updateBy_of_lookup {κ α : Type} [DecidableEq κ]
    (L : List (κ × α)) (k : κ) (v w : α) (h : lookupBy L k = some w) :
    (updateBy L k v).map Prod.fst = L.map Prod.fst := by
  induction L with
  | nil => simp [lookupBy] at h
  | cons e rest ih =>
    obtain ⟨a, b⟩ := e
    by_cases he : a = k
    · simp [updateBy, he]
    · simp only [lookupBy, if_neg he] at h
      simp [updateBy, he, ih h]

theorem keysOf_updateBy_of_none {κ α : Type} [DecidableEq κ]
    (L : List (κ × α)) (k : κ) (v : α) (h : lookupBy L k = none) :
    (updateBy L k v).map Prod.fst = L.map Prod.fst ++ [k] := by
  induction L with
  | nil => simp [updateBy]
  | cons e rest ih =>
    obtain ⟨a, b⟩ := e
    by_cases he : a = k
    · simp [lookupBy, he] at h
    · simp only [lookupBy, if_neg he] at h
      simp [updateBy, he, ih h]

theorem not_mem_keys_of_lookup_none {κ α : Type} [DecidableEq κ]
    (L : List (κ × α)) (k : κ) (h : lookupBy L k = none) :
    k ∉ L.map Prod.fst := by
  induction L with
  | nil => simp
  | cons e rest ih =>
    obtain ⟨a, b⟩ := e
    simp only [lookupBy] at h
    by_cases he : a = k
    · simp [he] at h
    · simp only [if_neg he] at h
      simp only [List.map_cons, List.mem_cons]
      push_neg
      exact ⟨Ne.symm he, ih h⟩

theorem lookup_some_mem_pair {κ α : Type} [DecidableEq κ]
    (L : List (κ × α)) (k : κ) (v : α) (h : lookupBy L k = some v) :
    (k, v) ∈ L := by
  induction L with
  | nil => simp [lookupBy] at h
  | cons e rest ih =>
    obtain ⟨a, b⟩ := e
    by_cases he : a = k
    · subst he
      simp only [lookupBy, if_pos rfl] at h
      cases h
      simp
    · simp only [lookupBy, if_neg he] at h
      exact List.mem_cons_of_mem _ (ih h)

/-! ## Presence-set consistency (C7 support) -/

/-- The presence-set representation invariant: unique identities (a Python
dict cannot have duplicate keys) and a non-empty handle set under every
identity. -/
def presInv (P : List (Option String × List Client)) : Prop :=
  (P.map Prod.fst).Nodup ∧ ∀ e ∈ P, e.2 ≠ []

theorem insertClient_ne_nil (c : Client) (cs : List Client) :
    insertClient c cs ≠ [] := by
  unfold insertClient
  split
  · rename_i h
    intro hc
    rw [hc] at h
    simp at h
  · simp

/-- C7: for any sequence of presence add/remove callbacks, an identity is a
key of the presence set iff at least one live connection handle is recorded
under it: both callbacks preserve the representation invariant, adding an
already-recorded handle and removing an absent handle (including a client
whose id is `none` or unknown) are exact no-ops, and a removal deletes the
identity's entry exactly when its handle set becomes empty. -/
theorem presence_consistency (pe : Bool) (st : PresSt) (c : Client) :
    (presInv st.present → presInv (addClientPresent pe st c).present) ∧
    (presInv st.present → presInv (removeClientPresent pe st c).present) ∧
    (∀ cs, lookupBy st.present c.idv = some cs → c ∈ cs →
      addClientPresent pe st c = st) ∧
    (c.idv = none → removeClientPresent pe st c = st) ∧
    (∀ i, c.idv = some i → lookupBy st.present (some i) = none →
      removeClientPresent pe st c = st) ∧
    (∀ i cs, c.idv = some i → lookupBy st.present (some i) = some cs →
      c ∉ cs → removeClientPresent pe st c = st) ∧
    (∀ i cs, presInv st.present → c.idv = some i →
      lookupBy st.present (some i) = some cs → c ∈ cs →
      lookupBy (removeClientPresent pe st c).present (some i) =
        (if cs.erase c = [] then none else some (cs.erase c))) ∧
    (∀ (P : List (Option String × List Client)) (k : Option String),
      presInv P →
      ((∃ cs, lookupBy P k = some cs) ↔
        ∃ cs, lookupBy P k = some cs ∧ cs ≠ [])) := by
  refine ⟨?_, ?_, ?_, ?_, ?_, ?_, ?_, ?_⟩
  · rintro ⟨hnd, hval⟩
    cases hl : lookupBy st.present c.idv with
    | some cs =>
      simp only [addClientPresent, hl]
      refine ⟨?_, ?_⟩
      · rw [keysOf_updateBy_of_lookup _ _ _ _ hl]
        exact hnd
      · intro e he
        rcases mem_updateBy _ _ _ _ he with h | h
        · exact hval e h
        · rw [h]
          exact insertClient_ne_nil c cs
    | none =>
      simp only [addClientPresent, hl]
      have hpres : presInv (updateBy st.present c.idv [c]) := by
        refine ⟨?_, ?_⟩
        · rw [keysOf_updateBy_of_none _ _ _ hl, List.nodup_append]
          refine ⟨hnd, List.nodup_singleton _, ?_⟩
          intro x hx hmem
          rw [List.mem_singleton] at hmem
          subst hmem
          exact (not_mem_keys_of_lookup_none _ _ hl) hx
        · intro e he
          rcases mem_updateBy _ _ _ _ he with h | h
          · exact hval e h
          · rw [h]
            simp
      cases pe <;> simpa using hpres
  · rintro ⟨hnd, hval⟩
    cases hc : c.idv with
    | none =>
      simp only [removeClientPresent, hc]
      exact ⟨hnd, hval⟩
    | some i =>
      cases hl : lookupBy st.present (some i) with
      | none =>
        simp only [removeClientPresent, hc, hl]
        exact ⟨hnd, hval⟩
      | some cs =>
        simp only [removeClientPresent, hc, hl]
        by_cases hmem : c ∈ cs
        · rw [if_neg (not_not_intro hmem)]
          by_cases hnil : cs.erase c = []
          · rw [if_pos hnil]
            have hpres : presInv (removeBy st.present (some i)) := by
              refine ⟨(keysOf_removeBy_sublist _ _).nodup hnd, ?_⟩
              intro e he
              exact hval e (mem_removeBy _ _ _ he)
            cases pe <;> simpa using hpres
          · rw [if_neg hnil]
            refine ⟨?_, ?_⟩
            · rw [keysOf_updateBy_of_lookup _ _ _ _ hl]
              exact hnd
            · intro e he
              rcases mem_updateBy _ _ _ _ he with h | h
              · exact hval e h
              · rw [h]
                exact hnil
        · rw [if_pos hmem]
          exact ⟨hnd, hval⟩
  · intro cs hl hmem
    have hins : insertClient c cs = cs := by
      rw [insertClient, if_pos hmem]
    have hupd : updateBy st.present c.idv (insertClient c cs) = st.present := by
      rw [hins]
      exact updateBy_idem _ _ _ hl
    simp only [addClientPresent, hl, hupd]
  · intro h
    simp only [removeClientPresent, h]
  · intro i hc hl
    simp only [removeClientPresent, hc, hl]
  · intro i cs hc hl hmem
    simp only [removeClientPresent, hc, hl]
    rw [if_pos hmem]
  · intro i cs hinv hc hl hmem
    simp only [removeClientPresent, hc, hl]
    rw [if_neg (not_not_intro hmem)]
    by_cases hnil : cs.erase c = []
    · rw [if_pos hnil, if_pos hnil]
      have : lookupBy (removeBy st.present (some i)) (some i) = none :=
        lookupBy_removeBy_self _ _ hinv.1
      cases pe <;> simpa using this
    · rw [if_neg hnil, if_neg hnil]
      exact lookupBy_updateBy_self _ _ _
  · rintro P k ⟨hnd, hval⟩
    constructor
    · rintro ⟨cs, hl⟩
      exact ⟨cs, hl, hval _ (lookup_some_mem_pair _ _ _ hl)⟩
    · rintro ⟨cs, hl, _⟩
      exact ⟨cs, hl⟩

/-- C1: once a minion's key record is `accepted` with key `K1` (open mode
off), an `_auth` request presenting a key that does not compare equal to
`K1` is always rejected (plain `{ret: False}` or its `_clear_signed`
equivalent), the presented (stripped) key is appended to the denied-keys
set when not already there, and the key record itself is not stored or
mutated — regardless of the auto-sign/auto-reject policies: the theorem
quantifies over the whole environment, including both policy predicates.
The hypotheses pin only: a valid string id, a `pub` field, a nonce (read
when signing), the `max_minions` gate not firing, the accepted record, and
the failing key comparison. -/
theorem auth_keyswap_denied (env : Env) (st : SrvState) (l : Load)
    (sm : Bool) (ver : Int) (id K1 P2 n : String)
    (hid : l.idv = some (.str id))
    (hvalid : env.validId id = true)
    (hpub : l.pub = some P2)
    (hnonce : l.nonce = some n)
    (hgate : gateRejects env id = false)
    (hkey : lookupBy st.keysBucket id = some ⟨K1, "accepted"⟩)
    (hopen : env.openMode = false)
    (hmm : compareKeys env (pyStrip K1) (pyStrip P2) = false) :
    authFn env st l sm ver =
      .ok ((if sm then
              clearSigned env (.retNonce (.bool false) n)
                (l.sigAlgo.getD PKCS1v15_SHA1)
            else .clear (.bool false)),
        fireAuth env
          (if pyStrip P2 ∈ (lookupBy st.deniedBucket id).getD [] then st
           else storeDenied st id
             ((lookupBy st.deniedBucket id).getD [] ++ [pyStrip P2]))
          ⟨some false, some "denied", id, pyStrip P2⟩) ∧
    (fireAuth env
        (if pyStrip P2 ∈ (lookupBy st.deniedBucket id).getD [] then st
         else storeDenied st id
           ((lookupBy st.deniedBucket id).getD [] ++ [pyStrip P2]))
        ⟨some false, some "denied", id, pyStrip P2⟩).keysBucket =
      st.keysBucket ∧
    (fireAuth env
        (if pyStrip P2 ∈ (lookupBy st.deniedBucket id).getD [] then st
         else storeDenied st id
           ((lookupBy st.deniedBucket id).getD [] ++ [pyStrip P2]))
        ⟨some false, some "denied", id, pyStrip P2⟩).keysLog =
      st.keysLog ∧
    (pyStrip P2 ∉ (lookupBy st.deniedBucket id).getD [] →
      lookupBy (fireAuth env
          (storeDenied st id
            ((lookupBy st.deniedBucket id).getD [] ++ [pyStrip P2]))
          ⟨some false, some "denied", id, pyStrip P2⟩).deniedBucket id =
        some ((lookupBy st.deniedBucket id).getD [] ++ [pyStrip P2])) := by
  refine ⟨?_, ?_, ?_, ?_⟩
  · simp only [authFn, hid, hvalid, hpub, hgate, hkey, hopen, Bool.not_true,
      Bool.false_eq_true, if_false]
    simp only [authMachine, hopen, Bool.false_eq_true, if_false]
    simp only [if_true, hmm, Bool.not_false]
    simp only [denyMismatch, replyRet]
    cases sm with
    | false => simp
    | true => simp [hnonce]
  · unfold fireAuth storeDenied
    split <;> split <;> rfl
  · unfold fireAuth storeDenied
    split <;> split <;> rfl
  · intro hni
    unfold fireAuth storeDenied
    split <;> exact lookupBy_updateBy_self _ _ _

/-- Witness state for C1: an accepted record for "m1" under key "K1". -/
def wStC1 : SrvState := { keysBucket := [("m1", ⟨"K1", "accepted"⟩)] }

/-- Witness load for C1: "m1" presenting the swapped key "K2". -/
def wLoadC1 : Load :=
  { idv := some (.str "m1")
    pub := some "K2"
    nonce := some "N" }

/-- Witness for C1 at a concrete accepted record and swapped key. -/
theorem auth_keyswap_denied_witness :
    authFn {} wStC1 wLoadC1 false 0 =
      .ok (.clear (.bool false),
        fireAuth {} (storeDenied wStC1 "m1" ["K2"])
          ⟨some false, some "denied", "m1", "K2"⟩) := by
  have h := auth_keyswap_denied {} wStC1 wLoadC1
    false 0 "m1" "K1" "K2" "N" rfl rfl rfl rfl (by decide) (by decide) rfl
    (by decide)
  exact h.1

/-- Counterexample environment for C3: `max_minions = 1` with exactly one
connected minion, i.e. the connected count is *at* the cap. -/
def wEnvC3 : Env :=
  { maxMinions := 1
    connectedIds := ["m1"] }

/-- Counterexample for C3: with `max_minions = 1` and 1 minion connected,
the 2nd distinct new identity is *not* rejected with "full" — the code
gate fires only when the connected count strictly exceeds the cap
(`not len(minions) <= max_minions`), so the request proceeds and a
`pending` key record is created (reply `{ret: True}`). -/
theorem maxminions_at_cap_cx :
    authFn wEnvC3 {} { idv := some (.str "m2"), pub := some "PUB2" } false 0 =
      .ok (.clear (.bool true), storeKeys {} "m2" ⟨"PUB2", "pending"⟩) := rfl

/-- C3 (amended): the `max_minions` gate fires iff the cap is set and the
connected count *strictly exceeds* it and the identity is not connected;
when it fires the reply is "full" and no key record (or denied set) is
touched; an identity that is already among the connected ones always
bypasses the gate and is processed by the ordinary state machine. -/
theorem maxminions_gate (env : Env) (st : SrvState) (l : Load)
    (sm : Bool) (ver : Int) (id P n : String)
    (hid : l.idv = some (.str id))
    (hvalid : env.validId id = true)
    (hpub : l.pub = some P)
    (hnonce : l.nonce = some n) :
    (gateRejects env id =
      (decide (0 < env.maxMinions) &&
        decide (env.maxMinions <
          (if env.conCache then env.cachedMinions else env.connectedIds).length) &&
        !decide (id ∈
          (if env.conCache then env.cachedMinions else env.connectedIds)))) ∧
    (gateRejects env id = true →
      authFn env st l sm ver =
        .ok ((if sm then
                clearSigned env (.retNonce (.str "full") n)
                  (l.sigAlgo.getD PKCS1v15_SHA1)
              else .clear (.str "full")),
          fireAuth env st ⟨some false, some "full", id, pyStrip P⟩) ∧
      (fireAuth env st ⟨some false, some "full", id, pyStrip P⟩).keysBucket =
        st.keysBucket ∧
      (fireAuth env st ⟨some false, some "full", id, pyStrip P⟩).keysLog =
        st.keysLog ∧
      (fireAuth env st ⟨some false, some "full", id, pyStrip P⟩).deniedBucket =
        st.deniedBucket) ∧
    (id ∈ (if env.conCache then env.cachedMinions else env.connectedIds) →
      authFn env st l sm ver =
        authMachine env st { l with pub := some (pyStrip P) } id (pyStrip P) sm
          (l.sigAlgo.getD PKCS1v15_SHA1) (l.encAlgo.getD OAEP_SHA1)
          (env.checkAutoreject id) (env.checkAutosign id l.grains)
          (match lookupBy st.keysBucket id with
           | some k => some { k with pub := pyStrip k.pub }
           | none => none)
          ((lookupBy st.deniedBucket id).getD [])) := by
  refine ⟨?_, ?_, ?_⟩
  · have hmid : ∀ a b : Nat, (!decide (a ≤ b)) = decide (b < a) := by
      intro a b
      rw [← decide_not]
      exact decide_eq_decide.mpr Nat.not_le
    simp only [gateRejects]
    rw [hmid]
  · intro hg
    refine ⟨?_, ?_, ?_, ?_⟩
    · simp only [authFn, hid, hvalid, hpub, hg, Bool.not_true,
        Bool.false_eq_true, if_false, if_true]
      simp only [replyRet]
      cases sm with
      | false => simp
      | true => simp [hnonce]
    · unfold fireAuth
      split <;> rfl
    · unfold fireAuth
      split <;> rfl
    · unfold fireAuth
      split <;> rfl
  · intro hmem
    have hg : gateRejects env id = false := by
      simp [gateRejects, hmem]
    simp only [authFn, hid, hvalid, hpub, hg, Bool.not_true,
      Bool.false_eq_true, if_false]

/-- Witness for C3's amended theorem: the gate fires for a third identity
once two minions are connected past the cap of one. -/
theorem maxminions_gate_witness :
    authFn { maxMinions := 1, connectedIds := ["m1", "m2"] } {}
      { idv := some (.str "m3"), pub := some "P", nonce := some "N" }
      false 0 =
      .ok (.clear (.str "full"),
        fireAuth { maxMinions := 1, connectedIds := ["m1", "m2"] } {}
          ⟨some false, some "full", "m3", "P"⟩) :=
  ((maxminions_gate { maxMinions := 1, connectedIds := ["m1", "m2"] } {}
    { idv := some (.str "m3"), pub := some "P", nonce := some "N" }
    false 0 "m3" "P" "N" rfl rfl rfl rfl).2.1 (by decide)).1

/-- Counterexample payload for C4: a well-formed `_auth` envelope whose
load has a valid id but no `pub` field. -/
def wPayloadC4 : Payload :=
  .dict { enc := some "clear"
          load := some (.ld { idv := some (.str "m1"), cmd := some "_auth" })
          version := some 0 }

/-- Counterexample for C4: an `_auth` load missing `pub` makes the
`load["pub"].strip()` access raise `KeyError`, which nothing in
`handle_message` catches — the exception escapes to the transport layer
instead of producing a reply value. -/
theorem auth_missing_pub_cx :
    handleMessage {} {} wPayloadC4 = .error (.keyError "pub") := by decide

/-- The exceptions that can escape `handle_message` in the model:
`KeyError` on the `id`/`pub`/`nonce`/`ts` field accesses, the
`UnboundLocalError`s on `aes` (token-decrypt failure in `auth_mode >= 2`)
and `nonce` (non-aes envelope reaching an encrypting `req_fun`), the
`TypeError` of the unreachable `None`-record accept fallback, and
`UnsupportedAlgorithm` from the unguarded signing call in
`_encrypt_private`. -/
def escapeOk (e : PyErr) : Prop :=
  e = .keyError "id" ∨ e = .keyError "pub" ∨ e = .keyError "nonce" ∨
    e = .keyError "ts" ∨ e = .unboundLocal "aes" ∨
    e = .unboundLocal "nonce" ∨ e = .typeError "NoneType" ∨
    e = .unsupportedAlgorithm

theorem replyRet_escape {env : Env} {st : SrvState} {l : Load} {sm : Bool}
    {sigA : String} {r : RetVal} {e : PyErr}
    (h : replyRet env st l sm sigA r = .error e) : escapeOk e := by
  unfold replyRet at h
  repeat' split at h
  all_goals try dsimp only at h
  all_goals repeat' split at h
  all_goals simp_all [escapeOk]

theorem sealAccept_escape {env : Env} {st : SrvState} {l : Load}
    {id pubS : String} {sm : Bool} {sigA encA po : String} {r : AcceptRet}
    {aes : String} {e : PyErr}
    (h : sealAccept env st l id pubS sm sigA encA po r aes = .error e) :
    escapeOk e := by
  unfold sealAccept at h
  repeat' split at h
  all_goals try dsimp only at h
  all_goals repeat' split at h
  all_goals simp_all [escapeOk]

theorem finishAccept_escape {env : Env} {st : SrvState} {l : Load}
    {id pubS : String} {sm : Bool} {sigA encA : String} {k : KeyRecord}
    {e : PyErr}
    (h : finishAccept env st l id pubS sm sigA encA k = .error e) :
    escapeOk e := by
  unfold finishAccept at h
  repeat' split at h
  all_goals try dsimp only at h
  all_goals repeat' split at h
  all_goals first
    | exact replyRet_escape h
    | exact sealAccept_escape h
    | simp_all [escapeOk]

theorem acceptGo_escape {env : Env} {st : SrvState} {l : Load}
    {id pubS : String} {sm : Bool} {sigA encA : String}
    {key : Option KeyRecord} {e : PyErr}
    (h : acceptGo env st l id pubS sm sigA encA key = .error e) :
    escapeOk e := by
  unfold acceptGo at h
  repeat' split at h
  all_goals try dsimp only at h
  all_goals repeat' split at h
  all_goals first
    | exact replyRet_escape h
    | exact finishAccept_escape h
    | simp_all [escapeOk]

theorem denyMismatch_escape {env : Env} {st : SrvState} {l : Load}
    {id pubS : String} {sm : Bool} {sigA : String} {denied : List String}
    {act : Option String} {e : PyErr}
    (h : denyMismatch env st l id pubS sm sigA denied act = .error e) :
    escapeOk e := by
  unfold denyMismatch at h
  exact replyRet_escape h

theorem authMachine_escape {env : Env} {st : SrvState} {l : Load}
    {id pubS : String} {sm : Bool} {sigA encA : String}
    {autoReject autoSign : Bool} {key : Option KeyRecord}
    {denied : List String} {e : PyErr}
    (h : authMachine env st l id pubS sm sigA encA autoReject autoSign
      key denied = .error e) : escapeOk e := by
  unfold authMachine at h
  repeat' split at h
  all_goals try dsimp only at h
  all_goals repeat' split at h
  all_goals first
    | exact replyRet_escape h
    | exact acceptGo_escape h
    | exact denyMismatch_escape h
    | simp_all [escapeOk]

theorem authFn_escape {env : Env} {st : SrvState} {l : Load} {sm : Bool}
    {ver : Int} {e : PyErr}
    (h : authFn env st l sm ver = .error e) : escapeOk e := by
  unfold authFn invalidIdReply at h
  repeat' split at h
  all_goals try dsimp only at h
  all_goals repeat' split at h
  all_goals first
    | exact replyRet_escape h
    | exact authMachine_escape h
    | simp_all [escapeOk]

theorem encryptPrivate_escape {env : Env} {st : SrvState} {ret : HRet}
    {dictkey target : String} {nonce : Option String} {sm : Bool}
    {encA sigA : String} {e : PyErr}
    (h : encryptPrivate env st ret dictkey target nonce sm encA sigA =
      .error e) : escapeOk e := by
  unfold encryptPrivate at h
  repeat' split at h
  all_goals try dsimp only at h
  all_goals repeat' split at h
  all_goals simp_all [escapeOk]

theorem invokeHandler_escape {env : Env} {st : SrvState} {p : Envelope}
    {l2 : Load} {idStr : String} {version : Int}
    {nonceVar : Option (Option String)} {e : PyErr}
    (h : invokeHandler env st p l2 idStr version nonceVar = .error e) :
    escapeOk e := by
  unfold invokeHandler at h
  repeat' split at h
  all_goals try dsimp only at h
  all_goals repeat' split at h
  all_goals first
    | exact encryptPrivate_escape (by assumption)
    | (cases h
       exact encryptPrivate_escape (by assumption))
    | simp_all [escapeOk]

theorem v3Checks_escape {env : Env} {st : SrvState} {p : Envelope}
    {l1 : Load} {idStr : String} {version : Int} {nonce : Option String}
    {e : PyErr}
    (h : v3Checks env st p l1 idStr version nonce = .error e) :
    escapeOk e := by
  unfold v3Checks at h
  repeat' split at h
  all_goals try dsimp only at h
  all_goals repeat' split at h
  all_goals first
    | exact invokeHandler_escape h
    | simp_all [escapeOk]

theorem handleRouted_escape {env : Env} {st : SrvState} {p : Envelope}
    {l0 : Load} {idStr : String} {version : Int} {e : PyErr}
    (h : handleRouted env st p l0 idStr version = .error e) :
    escapeOk e := by
  unfold handleRouted at h
  repeat' split at h
  all_goals try dsimp only at h
  all_goals repeat' split at h
  all_goals first
    | exact invokeHandler_escape h
    | exact v3Checks_escape h
    | exact authFn_escape (by assumption)
    | (cases h
       exact authFn_escape (by assumption))
    | simp_all [escapeOk]

/-- C4 (amended): the only exceptions that escape `handle_message` are the
missing-field `KeyError`s (`id`, `pub`, `nonce`, `ts`), the two
`UnboundLocalError`s, the unreachable accept-fallback `TypeError`, and
`UnsupportedAlgorithm` from `_encrypt_private`'s signing call; decode-stage
and application-handler exceptions never escape — they are caught and
mapped to generic reply strings. -/
theorem handle_escapes (env : Env) (st : SrvState) (pl : Payload)
    (e : PyErr) (h : handleMessage env st pl = .error e) : escapeOk e := by
  unfold handleMessage at h
  repeat' split at h
  all_goals try dsimp only at h
  all_goals repeat' split at h
  all_goals first
    | exact handleRouted_escape h
    | simp_all [escapeOk]

/-- Witness for C4's amended theorem at the concrete missing-`pub`
input. -/
theorem handle_escapes_witness : escapeOk (.keyError "pub") :=
  handle_escapes {} {} wPayloadC4 (.keyError "pub") rfl

/-- C5: for version ≤ 2 `aes` payloads, an `AuthenticationError` from the
shared-crypticle decrypt triggers exactly one self-heal: the current
shared secret is re-read (`_update_aes`) and the decrypt is retried iff it
differs from the cached crypticle key; an unchanged secret, or a failing
retry, surfaces as exactly the generic "bad load" reply with no internal
detail (the refreshed key is kept in the worker state either way). -/
theorem aes_selfheal (env : Env) (st : SrvState) (p0 : Envelope)
    (c : String) (ver : Int)
    (henc : p0.enc = some "aes")
    (hcl : p0.load = some (.cipher c))
    (hver : p0.version = some ver)
    (hv : ¬ 2 < ver)
    (hfail : env.decrypt st.cryptKey c = .error .authError) :
    (aesKeyOf env st = st.cryptKey →
      handleMessage env st (.dict p0) = .ok (.str "bad load", st)) ∧
    (∀ e, aesKeyOf env st ≠ st.cryptKey →
      env.decrypt (aesKeyOf env st) c = .error e →
      handleMessage env st (.dict p0) =
        .ok (.str "bad load", { st with cryptKey := aesKeyOf env st })) ∧
    (∀ lv, aesKeyOf env st ≠ st.cryptKey →
      env.decrypt (aesKeyOf env st) c = .ok lv →
      decodePayload env st p0 ver =
        (.ok { p0 with load := some lv },
          { st with cryptKey := aesKeyOf env st })) := by
  refine ⟨?_, ?_, ?_⟩
  · intro hsame
    simp [handleMessage, decodePayload, henc, hcl, hver, hv, hfail, hsame]
  · intro e hne hfail2
    simp [handleMessage, decodePayload, henc, hcl, hver, hv, hfail, hne,
      hfail2]
  · intro lv hne hok
    simp [decodePayload, henc, hcl, hv, hfail, hne, hok]

/-- Witness environment for C5: decryption under the stale key "K" fails
with an authentication error. -/
def wEnvC5 : Env :=
  { decrypt := fun k _ =>
      if k = "K" then .error .authError else .ok (.ld {}) }

/-- Witness state for C5: the cached crypticle key equals the current
shared secret, so no retry happens. -/
def wStC5 : SrvState :=
  { cryptKey := "K"
    secretAes := "K" }

/-- Witness for C5: concrete unchanged-secret decode failure surfaces as
"bad load". -/
theorem aes_selfheal_witness :
    handleMessage wEnvC5 wStC5
      (.dict { enc := some "aes", load := some (.cipher "C"),
               version := some 0 }) =
      .ok (.str "bad load", wStC5) :=
  (aes_selfheal wEnvC5 wStC5
    { enc := some "aes", load := some (.cipher "C"), version := some 0 }
    "C" 0 rfl rfl rfl (by decide) (by decide)).1 rfl

/-- Counterexample environment for C2: version-3 decryption yields an
inner load whose id is "b" and which carries no `ts` field;
`request_server_ttl` is enabled. -/
def wEnvC2 : Env :=
  { requestServerTtl := 30
    decrypt := fun _ _ => .ok (.ld { idv := some (.str "b") }) }

/-- Counterexample for C2: an `enc="aes"`, version-3 envelope whose outer
id "a" differs from the decrypted inner id "b" is *not* answered with the
generic "bad load" reply when the inner load lacks `ts` and
`request_server_ttl > 0`: the `payload["load"]["ts"]` access raises an
uncaught `KeyError` before the id-binding check runs. -/
theorem idbind_missing_ts_cx :
    handleMessage wEnvC2 {}
      (.dict { enc := some "aes", load := some (.cipher "C"),
               idv := some (.str "a"), version := some 3 }) =
      .error (.keyError "ts") := by decide

/-- C2 (amended): for `enc="aes"`, version > 2 envelopes, whenever the
decode stage yields a mapping whose id is a NUL-free string and which
carries a `ts` field if `request_server_ttl` is enabled, an outer/inner id
mismatch is always answered with exactly the generic "bad load" reply
(whether or not the ttl check also fires first), independent of the rest
of the content. -/
theorem idbind_reject (env : Env) (st st1 : SrvState) (p0 : Envelope)
    (c : String) (l : Load) (ver : Int) (s : String) (ov : IdVal)
    (henc : p0.enc = some "aes")
    (hcl : p0.load = some (.cipher c))
    (hver : p0.version = some ver)
    (hv : 2 < ver)
    (hdec : decodePayload env st p0 ver =
      (.ok { p0 with load := some (.ld l) }, st1))
    (hlid : l.idv = some (.str s))
    (hnul : Char.ofNat 0 ∉ s.toList)
    (hts : 0 < env.requestServerTtl → l.ts.isSome)
    (houter : p0.idv = some ov)
    (hmm : ov ≠ .str s) :
    handleMessage env st (.dict p0) = .ok (.str "bad load", st1) := by
  have h1 : (1 : Int) < ver := by omega
  simp only [handleMessage, henc, hcl, hver, Option.getD_some,
    Option.isNone_some, Bool.or_self, Bool.false_eq_true, if_false, hdec,
    hlid]
  rw [if_neg hnul]
  by_cases hrt : 0 < env.requestServerTtl
  · obtain ⟨tsv, htsv⟩ := Option.isSome_iff_exists.mp (hts hrt)
    by_cases hexp : (env.requestServerTtl : Int) < st1.now - tsv
    · simp [handleRouted, henc, h1, hv, hrt, htsv, hexp]
    · simp [handleRouted, v3Checks, henc, hlid, houter, h1, hv, hrt, htsv,
        hexp, hmm]
  · simp [handleRouted, v3Checks, henc, hlid, houter, h1, hv, hrt, hmm]

/-- Witness state for C2: the worker state after the version-3 decode has
issued a fresh session key for outer id "a". -/
def wSt1C2 : SrvState :=
  { sessions := [("a", (0, ""))]
    sessionFiles := [("a", (0, ""))]
    freshCtr := 1 }

/-- Witness for C2's amended theorem: a concrete mismatched envelope with
`ts` present is answered "bad load". -/
theorem idbind_reject_witness :
    handleMessage
      { requestServerTtl := 30
        decrypt := fun _ _ => .ok (.ld { idv := some (.str "b"), ts := some 0 }) }
      {}
      (.dict { enc := some "aes", load := some (.cipher "C"),
               idv := some (.str "a"), version := some 3 }) =
      .ok (.str "bad load", wSt1C2) := by
  have h := idbind_reject
    { requestServerTtl := 30
      decrypt := fun _ _ => .ok (.ld { idv := some (.str "b"), ts := some 0 }) }
    {} wSt1C2
    { enc := some "aes", load := some (.cipher "C"),
      idv := some (.str "a"), version := some 3 }
    "C" { idv := some (.str "b"), ts := some 0 } 3 "b" (.str "a")
    rfl rfl rfl (by decide) (by decide) rfl (by decide) (fun _ => rfl) rfl
    (by decide)
  exact h

/-- Counterexample environment for C8: the signing collaborator rejects
unknown algorithms (exactly the failure mode `_clear_signed` already
guards against). -/
def wEnvC8 : Env :=
  { masterSign := fun s a => if a = PKCS1v15_SHA1 then .ok s else .error () }

/-- Counterexample state for C8: the target's key is present and valid. -/
def wStC8 : SrvState := { keysBucket := [("m1", ⟨"PUB", "accepted"⟩)] }

/-- Counterexample for C8: with the target key present and parseable, an
exception in the signing step (an agent-controlled unsupported signing
algorithm) escapes `_encrypt_private` instead of degrading to the empty
encrypted payload — the signing call sits outside the function's
`try`/`except` region. -/
theorem encrypt_private_sign_raises_cx :
    encryptPrivate wEnvC8 wStC8 (.val "D") "pillar" "m1" (some "N") true
      OAEP_SHA1 "BOGUS" = .error .unsupportedAlgorithm := by decide

/-- C8 (amended): a missing target public key, or a key that fails to
parse (any exception in the guarded fetch/parse region), degrades to the
shared-crypticle encryption of an empty mapping — the very same value in
both cases, so the caller cannot distinguish "no data" from "key error";
only exceptions after the guarded region (the signing call) escape. -/
theorem encrypt_private_degrades (env : Env) (st : SrvState) (ret : HRet)
    (dictkey target : String) (nonce : Option String) (sm : Bool)
    (encA sigA : String)
    (h : lookupBy st.keysBucket target = none ∨
      ∃ rec, lookupBy st.keysBucket target = some rec ∧
        env.fromStr rec.pub = none) :
    encryptPrivate env st ret dictkey target nonce sm encA sigA =
      .ok (.emptyEnc (env.dumpsEmpty st.cryptKey),
        { st with freshCtr := st.freshCtr + 1 }) := by
  unfold encryptPrivate
  rcases h with h | ⟨rec, h1, h2⟩
  · simp [h]
  · simp [h1, h2]

/-- Witness for C8's amended theorem: a missing target key yields the
empty encrypted payload. -/
theorem encrypt_private_degrades_witness :
    encryptPrivate {} {} (.val "D") "pillar" "mX" (some "N") true
      OAEP_SHA1 PKCS1v15_SHA1 =
      .ok (.emptyEnc "", { freshCtr := 1 }) :=
  encrypt_private_degrades {} {} (.val "D") "pillar" "mX" (some "N") true
    OAEP_SHA1 PKCS1v15_SHA1 (Or.inl rfl)

/-- Counterexample payload for C10: a `clear` non-`_auth` load carrying a
`tok` field. -/
def wPayloadC10 : Payload :=
  .dict { enc := some "clear"
          load := some (.ld { idv := some (.str "m1"), tok := some "T" })
          version := some 0 }

/-- Counterexample for C10: a `clear` non-`_auth` payload reaches the
application handler with its `tok` field intact — `validate_token` is
invoked only on the `aes` branch of `handle_message`. -/
theorem tok_reaches_handler_cx :
    (handleMessage {} {} wPayloadC10).map (fun r => (r.1, r.2.handlerCalls)) =
      .ok (.str "Some exception handling minion payload",
        [{ enc := some "clear"
           load := some (.ld { idv := some (.str "m1"), tok := some "T" })
           version := some 0 }]) := by decide

/-- The `tok` field of the load inside a recorded handler call. -/
def loadTok (q : Envelope) : Option String :=
  match q.load with
  | some (.ld l) => l.tok
  | _ => none

theorem sessionKeyFn_handlerCalls (env : Env) (st : SrvState) (m : String) :
    ((sessionKeyFn env st m).2).handlerCalls = st.handlerCalls := by
  unfold sessionKeyFn sessGo sessWrite sessFinish
  repeat' split
  all_goals rfl

theorem encryptPrivate_handlerCalls {env : Env} {st : SrvState} {ret : HRet}
    {dictkey target : String} {nonce : Option String} {sm : Bool}
    {encA sigA : String} {pr : PrivResult} {st3 : SrvState}
    (h : encryptPrivate env st ret dictkey target nonce sm encA sigA =
      .ok (pr, st3)) : st3.handlerCalls = st.handlerCalls := by
  unfold encryptPrivate at h
  dsimp only at h
  repeat' split at h
  all_goals cases h
  all_goals rfl

/-- Every successful `invokeHandler` run records exactly one handler call:
the envelope with the (validated) load. -/
theorem invokeHandler_calls {env : Env} {st : SrvState} {p : Envelope}
    {l2 : Load} {idStr : String} {version : Int}
    {nonceVar : Option (Option String)} {m : HMsg} {st' : SrvState}
    (h : invokeHandler env st p l2 idStr version nonceVar = .ok (m, st')) :
    st'.handlerCalls =
      st.handlerCalls ++ [{ p with load := some (.ld l2) }] := by
  unfold invokeHandler at h
  dsimp only at h
  repeat' split at h
  all_goals try cases h
  all_goals try rfl
  all_goals first
    | simp [sessionKeyFn_handlerCalls]
    | (rename_i hpriv
       simp [encryptPrivate_handlerCalls hpriv])

theorem invokeHandler_tok {env : Env} {st : SrvState} {p : Envelope}
    {l2 : Load} {idStr : String} {version : Int}
    {nonceVar : Option (Option String)} {m : HMsg} {st' : SrvState}
    (hl2 : l2.tok = none) (hcalls : st.handlerCalls = [])
    (h : invokeHandler env st p l2 idStr version nonceVar = .ok (m, st')) :
    ∀ q ∈ st'.handlerCalls, loadTok q = none := by
  rw [invokeHandler_calls h, hcalls]
  intro q hq
  simp only [List.nil_append, List.mem_singleton] at hq
  subst hq
  simp [loadTok, hl2]

theorem validateToken_pops (env : Env) (l : Load) (required : Bool) :
    ((validateToken env l required).2).tok = none := by
  unfold validateToken
  dsimp only
  repeat' split
  all_goals rfl

/-- C10 (amended): `validate_token` pops `tok` from the load on every path
(present or not, required or not, validated or not), and consequently
every handler invocation on the `aes` branch of `handle_message` observes
a tok-free load; `clear` non-`_auth` payloads, however, bypass
`validate_token` entirely (see the counterexample). -/
theorem tok_popped :
    (∀ (env : Env) (l : Load) (required : Bool),
      ((validateToken env l required).2).tok = none) ∧
    (∀ (env : Env) (st : SrvState) (p : Envelope) (l0 : Load)
      (idStr : String) (version : Int) (m : HMsg) (st' : SrvState),
      p.enc = some "aes" → st.handlerCalls = [] →
      handleRouted env st p l0 idStr version = .ok (m, st') →
      ∀ q ∈ st'.handlerCalls, loadTok q = none) := by
  refine ⟨validateToken_pops, ?_⟩
  intro env st p l0 idStr version m st' henc hcalls hrun
  unfold handleRouted v3Checks at hrun
  dsimp only at hrun
  repeat' split at hrun
  all_goals try exact Except.noConfusion hrun
  all_goals try (cases hrun; rw [hcalls]; intro q hq; simp at hq)
  all_goals first
    | exact absurd (henc.symm.trans (And.left (by assumption))) (by simp)
    | (refine invokeHandler_tok ?_ hcalls hrun
       have h2 := congrArg (fun x => x.2.tok)
         (by assumption : validateToken _ _ _ = ((true : Bool), _))
       exact h2.symm.trans (validateToken_pops _ _ _))

/-- Witness payload for C10's amended theorem: an `aes` envelope whose
decoded load carries a validating `tok`. -/
def wPayloadC10b : Envelope :=
  { enc := some "aes"
    load := some (.ld { idv := some (.str "m1"), tok := some "T" })
    version := some 0 }

/-- Witness environment for C10's amended theorem: the minion's on-disk
key is available and the token decrypts to `b"salt"`. -/
def wEnvC10 : Env :=
  { tokenPubFile := fun _ => some "PK"
    pubDecryptTok := fun _ t => if t = "T" then some "salt" else none }

/-- Witness for C10's amended theorem at a concrete `aes` run reaching the
handler. -/
theorem tok_popped_witness :
    ∀ q ∈ [{ wPayloadC10b with
        load := some (.ld { idv := some (.str "m1") }) }], loadTok q = none := by
  intro q hq
  exact tok_popped.2 wEnvC10 {} wPayloadC10b
    { idv := some (.str "m1"), tok := some "T" } "m1" 0
    (.str "Some exception handling minion payload")
    { handlerCalls := [{ wPayloadC10b with
        load := some (.ld { idv := some (.str "m1") }) }] }
    rfl rfl (by decide) q hq

/-- Environment for C9: one peer "p1" with a known public key; the
key-exchange blob "CKEY" decrypts to peer key "K" with a valid digest
signature, and the buffered ciphertext "EV" decrypts only under "K". -/
def wEnvC9 : CEnv :=
  { myId := "m1"
    fetchPeerPub := fun p => if p = "p1" then some "PK" else none
    masterDecrypt224 := fun c => if c = "CKEY" then "K" else "?"
    sha256hex := fun s => "H(" ++ s ++ ")"
    peerPubDecrypt := fun k s => if k = "PK" ∧ s = "SIG" then "H(K)" else "?"
    crypticleLoads := fun k d =>
      if k = "K" ∧ d = "EV" then .ok "payload" else .error .authErr }

/-- Initial cluster state for C9: peer "p1" configured, no key known. -/
def wCSt0 : CState := { authErrors := [("p1", [])] }

/-- C9 (code bug): an event from peer "p1" arriving before the peer's key
is known is buffered in that peer's FIFO queue (first conjunct); when the
key then arrives, the drain loop applies `parse_cluster_tag` to `tag` —
the tag of the *current* key-exchange event, `cluster/peer/p1` — instead
of the buffered event's own tag (which `popleft` binds to the dead
variable `key`).  The recovered peer id is thus "cluster", extraction
fails its key lookup, and the buffered event is silently dropped: the
queue empties with nothing republished (second conjunct), even though the
buffered tag parses to exactly the original tag `my/tag` (third
conjunct). -/
theorem cluster_drain_drops_buffered :
    (handlePoolPublish wEnvC9 wCSt0 "cluster/event/p1/my/tag" (.blob "EV") =
      { wCSt0 with
          authErrors := [("p1", [("cluster/event/p1/my/tag", "EV")])] }) ∧
    (handlePoolPublish wEnvC9
        { wCSt0 with
            authErrors := [("p1", [("cluster/event/p1/my/tag", "EV")])] }
        "cluster/peer/p1" (.peer "p1" [("m1", some ("CKEY", "SIG"))]) =
      { peerKeys := [("p1", "K")]
        authErrors := [("p1", [])]
        published := []
        busEvents := [{ peerId := "m1", peers := [] }] }) ∧
    parseClusterTag "cluster/event/p1/my/tag" = ("p1", "my/tag") := by
  refine ⟨by decide, by decide, by decide⟩

/-- `session_key` only touches the session cache, the key files and the
freshness counter. -/
theorem sessionKeyFn_frame (env : Env) (st : SrvState) (m : String) :
    ((sessionKeyFn env st m).2).keysBucket = st.keysBucket ∧
    ((sessionKeyFn env st m).2).keysLog = st.keysLog ∧
    ((sessionKeyFn env st m).2).now = st.now ∧
    ((sessionKeyFn env st m).2).secretAes = st.secretAes ∧
    ((sessionKeyFn env st m).2).secretClusterAes = st.secretClusterAes := by
  unfold sessionKeyFn sessGo sessWrite sessFinish
  repeat' split
  all_goals exact ⟨rfl, rfl, rfl, rfl, rfl⟩

/-- The key handed out by the file-consulting path depends only on the
session-relevant state fields. -/
theorem sessGo_key_congr (env : Env) (st st' : SrvState) (m : String)
    (h2 : st.sessionFiles = st'.sessionFiles) (h3 : st.now = st'.now)
    (h4 : st.freshCtr = st'.freshCtr) :
    (sessGo env st m).1 = (sessGo env st' m).1 := by
  unfold sessGo sessWrite sessFinish
  rw [h2, h3, h4]
  cases hf : lookupBy st'.sessionFiles m with
  | some tc =>
    obtain ⟨mt, c⟩ := tc
    by_cases hc : st'.now - mt > (env.publishSession : Int)
    · simp [hf, hc, lookupBy_updateBy_self]
    · simp [hf, hc]
  | none => simp [hf, lookupBy_updateBy_self]

/-- The key handed out by `session_key` depends only on the
session-relevant state fields. -/
theorem sessionKeyFn_key_congr (env : Env) (st st' : SrvState) (m : String)
    (h1 : st.sessions = st'.sessions) (h2 : st.sessionFiles = st'.sessionFiles)
    (h3 : st.now = st'.now) (h4 : st.freshCtr = st'.freshCtr) :
    (sessionKeyFn env st m).1 = (sessionKeyFn env st' m).1 := by
  unfold sessionKeyFn
  rw [h1, h3]
  cases hl : lookupBy st'.sessions m with
  | some tk =>
    obtain ⟨t, k⟩ := tk
    by_cases hc : st'.now - t < (env.publishSession : Int)
    · simp [hc]
    · simp [hc]
      exact sessGo_key_congr env st st' m h2 h3 h4
  | none => exact sessGo_key_congr env st st' m h2 h3 h4

/-- After a fresh key write, re-running `session_key` hits the cache (or
re-reads the same file) and changes nothing. -/
theorem sessFinish_fresh_idem (env : Env) (st : SrvState) (m : String) :
    sessionKeyFn env ((sessFinish (sessWrite env st m) m).2) m =
      sessFinish (sessWrite env st m) m := by
  unfold sessWrite sessFinish
  simp only [lookupBy_updateBy_self]
  unfold sessionKeyFn
  simp only [lookupBy_updateBy_self, sub_self]
  by_cases hp : (0 : Int) < (env.publishSession : Int)
  · simp [hp]
  · have hps : (env.publishSession : Int) = 0 := by omega
    simp [hp, sessGo, sessFinish, hps, lookupBy_updateBy_self,
      updateBy_idem]

/-- Re-running `session_key` after a cache refresh from a fresh-enough
file changes nothing. -/
theorem sessFinish_hit_idem (env : Env) (st : SrvState) (m : String)
    (mt : Int) (c : String)
    (hf : lookupBy st.sessionFiles m = some (mt, c))
    (hfresh : ¬ st.now - mt > (env.publishSession : Int)) :
    sessionKeyFn env ((sessFinish st m).2) m = sessFinish st m := by
  unfold sessFinish
  simp only [hf]
  unfold sessionKeyFn
  simp only [lookupBy_updateBy_self]
  by_cases hc : st.now - mt < (env.publishSession : Int)
  · simp [hc]
  · have hmid : st.now - mt = (env.publishSession : Int) := by omega
    simp [hc, sessGo, sessFinish, hf, hfresh, lookupBy_updateBy_self,
      updateBy_idem]

/-- Re-running `session_key` after its file-consulting path changes
nothing. -/
theorem sessGo_idem (env : Env) (st : SrvState) (m : String) :
    sessionKeyFn env ((sessGo env st m).2) m = sessGo env st m := by
  unfold sessGo
  cases hf : lookupBy st.sessionFiles m with
  | some tc =>
    obtain ⟨mt, c⟩ := tc
    by_cases hwr : st.now - mt > (env.publishSession : Int)
    · simp only [hwr, if_pos]
      exact sessFinish_fresh_idem env st m
    · simp only [hwr, if_neg, ite_false]
      exact sessFinish_hit_idem env st m mt c hf hwr
  | none => exact sessFinish_fresh_idem env st m

/-- Calling `session_key` again right after a call returns the same key
and leaves the state untouched. -/
theorem sessionKeyFn_idem (env : Env) (st : SrvState) (m : String) :
    sessionKeyFn env ((sessionKeyFn env st m).2) m = sessionKeyFn env st m := by
  cases hl : lookupBy st.sessions m with
  | some tk =>
    obtain ⟨t, k⟩ := tk
    by_cases hc : st.now - t < (env.publishSession : Int)
    · have hr : sessionKeyFn env st m = (k, st) := by
        unfold sessionKeyFn
        simp [hl, hc]
      rw [hr]
      exact hr
    · have hr : sessionKeyFn env st m = sessGo env st m := by
        unfold sessionKeyFn
        simp [hl, hc]
      rw [hr]
      exact sessGo_idem env st m
  | none =>
    have hr : sessionKeyFn env st m = sessGo env st m := by
      unfold sessionKeyFn
      simp [hl]
    rw [hr]
    exact sessGo_idem env st m

/-- The reply produced by the tail of the accept path, as a function of
its inputs (packaging of `sealAccept`'s result for reuse in statements). -/
def mkSealReply (env : Env) (sm : Bool) (sigA encA po : String)
    (r0 : AcceptRet) (aes sess n : String) : Reply :=
  let ret2 := { r0 with
    aes := some (env.pubEncrypt po aes encA)
    session := some (env.pubEncrypt po sess encA)
    sig := env.masterEncrypt (env.sha256hex aes) }
  if sm then clearSigned env (.accept { ret2 with nonce := some n }) sigA
  else .pub ret2

theorem sealAccept_run {env : Env} {st : SrvState} {l : Load}
    {id pubS : String} {sm : Bool} {sigA encA po : String} {r0 : AcceptRet}
    {aes n : String} (hnonce : l.nonce = some n) :
    sealAccept env st l id pubS sm sigA encA po r0 aes =
      .ok (mkSealReply env sm sigA encA po r0 aes
          ((sessionKeyFn env st id).1) n,
        fireAuth env ((sessionKeyFn env st id).2)
          ⟨some true, some "accept", id, pubS⟩) := by
  unfold sealAccept mkSealReply
  cases sm <;> simp [hnonce]

/-- Characterization of `_auth` on the accepted-and-matching path: it runs
the accept tail on the (possibly `con_cache`-registered) state with the
stored key's parsed public key and the cluster-aware shared secret. -/
theorem authAccepted_run (env : Env) (st : SrvState) (l : Load) (sm : Bool)
    (ver : Int) (id K P2 po : String)
    (hid : l.idv = some (.str id))
    (hvalid : env.validId id = true)
    (hpub : l.pub = some P2)
    (hgate : gateRejects env id = false)
    (hkey : lookupBy st.keysBucket id = some ⟨K, "accepted"⟩)
    (hopen : env.openMode = false)
    (hmatch : compareKeys env (pyStrip K) (pyStrip P2) = true)
    (htok : l.token = none)
    (hfrom : env.fromStr (pyStrip K) = some po) :
    authFn env st l sm ver =
      sealAccept env
        (if env.conCache then
          { st with putCacheLog := st.putCacheLog ++ [id] } else st)
        { l with pub := some (pyStrip P2) } id (pyStrip P2) sm
        (l.sigAlgo.getD PKCS1v15_SHA1) (l.encAlgo.getD OAEP_SHA1) po
        (if env.masterSignPubkey then
          (match env.pubkeySignature with
           | some s =>
             { pubKey := env.masterPubStr, publishPort := env.publishPort,
               pubSig := some s }
           | none =>
             { pubKey := env.masterPubStr, publishPort := env.publishPort,
               pubSig := some (env.b2aBase64 (env.signKeySign
                 env.masterPubStr (l.sigAlgo.getD PKCS1v15_SHA1))) })
         else { pubKey := env.masterPubStr, publishPort := env.publishPort })
        (aesKeyOf env st) := by
  simp only [authFn, hid, hvalid, hpub, hgate, hkey, hopen, Bool.not_true,
    Bool.false_eq_true, if_false]
  simp only [authMachine, hopen, Bool.false_eq_true, if_false]
  simp only [if_true, hmatch, Bool.not_true, Bool.false_eq_true, if_false]
  simp only [acceptGo, hopen, Bool.not_false, Bool.and_true]
  by_cases hc : env.conCache <;>
    simp [finishAccept, hfrom, htok, aesKeyOf, hc]

/-- Firing an auth event touches only the event log. -/
theorem fireAuth_frame (env : Env) (x : SrvState) (ev : EventLoad) :
    (fireAuth env x ev).keysBucket = x.keysBucket ∧
    (fireAuth env x ev).keysLog = x.keysLog ∧
    (fireAuth env x ev).now = x.now ∧
    (fireAuth env x ev).secretAes = x.secretAes ∧
    (fireAuth env x ev).secretClusterAes = x.secretClusterAes ∧
    (fireAuth env x ev).sessions = x.sessions ∧
    (fireAuth env x ev).sessionFiles = x.sessionFiles ∧
    (fireAuth env x ev).freshCtr = x.freshCtr := by
  by_cases h : env.authEventsOn <;> simp [fireAuth, h]

/-- The `con_cache` registration at the head of the accept path touches
only the presence-cache log. -/
theorem conPut_frame (env : Env) (x : SrvState) (id : String) :
    (if env.conCache then
      { x with putCacheLog := x.putCacheLog ++ [id] } else x).keysBucket
        = x.keysBucket ∧
    (if env.conCache then
      { x with putCacheLog := x.putCacheLog ++ [id] } else x).keysLog
        = x.keysLog ∧
    (if env.conCache then
      { x with putCacheLog := x.putCacheLog ++ [id] } else x).now = x.now ∧
    (if env.conCache then
      { x with putCacheLog := x.putCacheLog ++ [id] } else x).secretAes
        = x.secretAes ∧
    (if env.conCache then
      { x with putCacheLog := x.putCacheLog ++ [id] } else x).secretClusterAes
        = x.secretClusterAes ∧
    (if env.conCache then
      { x with putCacheLog := x.putCacheLog ++ [id] } else x).sessions
        = x.sessions ∧
    (if env.conCache then
      { x with putCacheLog := x.putCacheLog ++ [id] } else x).sessionFiles
        = x.sessionFiles ∧
    (if env.conCache then
      { x with putCacheLog := x.putCacheLog ++ [id] } else x).freshCtr
        = x.freshCtr := by
  by_cases h : env.conCache <;> simp [h]

/-- C6: running the `_auth` flow twice for the same identity and the same
public key, when the stored key record is already `accepted` and matches
(open mode disabled), performs no key-record store on either run
(`keysBucket` and the store log are unchanged both times) and returns the
same accept reply both times; without message signing that reply is the
`enc: "pub"` structure carrying encrypted `aes` and `session` slots. -/
theorem repeat_accept_idempotent (env : Env) (st : SrvState) (l : Load)
    (sm : Bool) (ver : Int) (id K P2 po n : String)
    (hid : l.idv = some (.str id))
    (hvalid : env.validId id = true)
    (hpub : l.pub = some P2)
    (hnonce : l.nonce = some n)
    (hgate : gateRejects env id = false)
    (hkey : lookupBy st.keysBucket id = some ⟨K, "accepted"⟩)
    (hopen : env.openMode = false)
    (hmatch : compareKeys env (pyStrip K) (pyStrip P2) = true)
    (htok : l.token = none)
    (hfrom : env.fromStr (pyStrip K) = some po) :
    ∃ r st1 st2,
      authFn env st l sm ver = .ok (r, st1) ∧
      authFn env st1 l sm ver = .ok (r, st2) ∧
      st1.keysBucket = st.keysBucket ∧
      st2.keysBucket = st.keysBucket ∧
      st1.keysLog = st.keysLog ∧
      st2.keysLog = st.keysLog ∧
      (sm = false → ∃ ar : AcceptRet, r = .pub ar ∧
        ar.aes.isSome = true ∧ ar.session.isSome = true) := by
  have hn1 : ({ l with pub := some (pyStrip P2) } : Load).nonce = some n :=
    hnonce
  have h1 := authAccepted_run env st l sm ver id K P2 po hid hvalid hpub
    hgate hkey hopen hmatch htok hfrom
  rw [sealAccept_run hn1] at h1
  set stc := (if env.conCache then
    { st with putCacheLog := st.putCacheLog ++ [id] } else st : SrvState)
    with hstc
  obtain ⟨c1, c2, c3, c4, c5, c6, c7, c8⟩ := conPut_frame env st id
  rw [← hstc] at c1 c2 c3 c4 c5 c6 c7 c8
  set s2 := ((sessionKeyFn env stc id).2 : SrvState) with hs2
  obtain ⟨f1, f2, f3, f4, f5⟩ := sessionKeyFn_frame env stc id
  rw [← hs2] at f1 f2 f3 f4 f5
  set st1 := (fireAuth env s2 ⟨some true, some "accept", id, pyStrip P2⟩ :
    SrvState) with hst1
  obtain ⟨g1, g2, g3, g4, g5, g6, g7, g8⟩ :=
    fireAuth_frame env s2 ⟨some true, some "accept", id, pyStrip P2⟩
  rw [← hst1] at g1 g2 g3 g4 g5 g6 g7 g8
  have hkb1 : st1.keysBucket = st.keysBucket := g1.trans (f1.trans c1)
  have hkl1 : st1.keysLog = st.keysLog := g2.trans (f2.trans c2)
  have hkey1 : lookupBy st1.keysBucket id = some ⟨K, "accepted"⟩ := by
    rw [hkb1]; exact hkey
  have h2 := authAccepted_run env st1 l sm ver id K P2 po hid hvalid hpub
    hgate hkey1 hopen hmatch htok hfrom
  rw [sealAccept_run hn1] at h2
  set stc2 := (if env.conCache then
    { st1 with putCacheLog := st1.putCacheLog ++ [id] } else st1 : SrvState)
    with hstc2
  obtain ⟨d1, d2, d3, d4, d5, d6, d7, d8⟩ := conPut_frame env st1 id
  rw [← hstc2] at d1 d2 d3 d4 d5 d6 d7 d8
  set s2b := ((sessionKeyFn env stc2 id).2 : SrvState) with hs2b
  obtain ⟨e1, e2, e3, e4, e5⟩ := sessionKeyFn_frame env stc2 id
  rw [← hs2b] at e1 e2 e3 e4 e5
  set st2 := (fireAuth env s2b ⟨some true, some "accept", id, pyStrip P2⟩ :
    SrvState) with hst2
  obtain ⟨j1, j2, j3, j4, j5, j6, j7, j8⟩ :=
    fireAuth_frame env s2b ⟨some true, some "accept", id, pyStrip P2⟩
  rw [← hst2] at j1 j2 j3 j4 j5 j6 j7 j8
  have hkb2 : st2.keysBucket = st.keysBucket :=
    j1.trans (e1.trans (d1.trans hkb1))
  have hkl2 : st2.keysLog = st.keysLog :=
    j2.trans (e2.trans (d2.trans hkl1))
  have haes : aesKeyOf env st1 = aesKeyOf env st := by
    unfold aesKeyOf
    rw [g4.trans (f4.trans c4), g5.trans (f5.trans c5)]
  have hid2 : sessionKeyFn env s2 id = sessionKeyFn env stc id := by
    rw [hs2]; exact sessionKeyFn_idem env stc id
  have hsess : (sessionKeyFn env stc2 id).1 = (sessionKeyFn env stc id).1 :=
    (sessionKeyFn_key_congr env stc2 s2 id (d6.trans g6) (d7.trans g7)
      (d3.trans g3) (d8.trans g8)).trans (congrArg Prod.fst hid2)
  rw [haes, hsess] at h2
  refine ⟨_, st1, st2, h1, h2, hkb1, hkb2, hkl1, hkl2, ?_⟩
  intro hsm
  subst hsm
  exact ⟨_, rfl, rfl, rfl⟩

def wStC6 : SrvState := { keysBucket := [("m9", ⟨"PUB", "accepted"⟩)] }

def wLoadC6 : Load :=
  { idv := some (.str "m9")
    pub := some "PUB"
    nonce := some "N" }

/-- Witness for C6 at a concrete accepted record re-presenting the same
key under the default configuration. -/
theorem repeat_accept_idempotent_witness :
    ∃ r st1 st2,
      authFn {} wStC6 wLoadC6 false 2 = .ok (r, st1) ∧
      authFn {} st1 wLoadC6 false 2 = .ok (r, st2) ∧
      st1.keysBucket = wStC6.keysBucket ∧
      st2.keysBucket = wStC6.keysBucket ∧
      st1.keysLog = wStC6.keysLog ∧
      st2.keysLog = wStC6.keysLog ∧
      (false = false → ∃ ar : AcceptRet, r = .pub ar ∧
        ar.aes.isSome = true ∧ ar.session.isSome = true) :=
  repeat_accept_idempotent {} wStC6 wLoadC6 false 2 "m9" "PUB" "PUB" "PUB"
    "N" (by rfl) (by rfl) (by rfl) (by rfl) (by decide) (by decide)
    (by rfl) (by decide) (by rfl) (by decide)

/-- Witness for C7: applying the theorem at a concrete state — adding an
already-recorded handle is a no-op. -/
theorem presence_consistency_witness :
    addClientPresent false
      ⟨[(some "m1", [⟨some "m1", 1⟩])], []⟩ ⟨some "m1", 1⟩ =
      ⟨[(some "m1", [⟨some "m1", 1⟩])], []⟩ :=
  (presence_consistency false ⟨[(some "m1", [⟨some "m1", 1⟩])], []⟩
    ⟨some "m1", 1⟩).2.2.1 [⟨some "m1", 1⟩] (by decide) (by decide)

end Salt
